import Mathlib

/-!
# Verification of the TraceBench log-viewer data core

A shallow embedding of the data reconciliation and merge engine of the
`log_viewer` package (`log_viewer/core/models.py`, `merge_handler.py`,
`io_handler.py`, `filter_manager.py`).

Modelling conventions:

* A pandas `DataFrame` is a `DF`: an ordered list of column names and a list
  of rows; a cell is `Option ℚ` where `none` models a missing value (`NaN`).
  Python floats are modelled by `ℚ` (the repository only does ordered-field
  arithmetic on them); `NaN`-propagating float slots are `Option ℚ`.
* Operations that can raise a Python exception return `Except String _`.
* Python `dict`s are association lists (Python dicts preserve insertion
  order; updating an existing key keeps its position, which the
  `dictInsert` helper reproduces).
* CPython iterates a `set` in an unspecified, hash-dependent order.  Every
  place the source iterates a set is therefore parameterised by an
  enumeration list, constrained by a hypothesis that it lists exactly the
  set's elements without duplicates.
-/

unseal Rat.add Rat.sub Rat.mul Rat.inv

namespace LogViewer

/-! ### String helpers

Python string primitives (`.lower()`, `.endswith()`, `in`) are modelled on
the underlying character lists (the data of this repository is ASCII, where
`Char.toLower` agrees with CPython's `str.lower`). -/

/-- Python `s.lower()`. -/
def pyLower (s : String) : String := ⟨s.data.map Char.toLower⟩

/-- `needle` matches at the head of `hay`. -/
def matchesAt : List Char → List Char → Bool
  | _, [] => true
  | [], _ :: _ => false
  | a :: as, b :: bs => a == b && matchesAt as bs

/-- `hay` contains `needle` as a contiguous run. -/
def hasRun : List Char → List Char → Bool
  | hay, needle =>
    if matchesAt hay needle then true
    else
      match hay with
      | [] => false
      | _ :: rest => hasRun rest needle

/-- Python's `needle in hay` on strings (substring containment). -/
def strIn (needle hay : String) : Bool := hasRun hay.data needle.data

/-- Python `s.endswith(suffix)`. -/
def strEndsWith (s suf : String) : Bool := matchesAt s.data.reverse suf.data.reverse

/-- `NaN`-propagating addition of two float scalars (`none` is `NaN`). -/
def fadd : Option ℚ → Option ℚ → Option ℚ
  | some a, some b => some (a + b)
  | _, _ => none

/-- `NaN`-propagating subtraction. -/
def fsub : Option ℚ → Option ℚ → Option ℚ
  | some a, some b => some (a - b)
  | _, _ => none

/-- A pandas DataFrame: ordered column names plus rows of cells.
Each row is positionally aligned with `cols`; a missing cell is `none`. -/
structure DF where
  cols : List String
  rows : List (List (Option ℚ))
deriving DecidableEq, Repr

/-- The empty frame `pd.DataFrame()`. -/
def emptyDF : DF := { cols := [], rows := [] }

/-- `df.empty` in pandas: true when the frame has no rows or no columns. -/
def DF.isEmpty (d : DF) : Bool := d.rows.isEmpty || d.cols.isEmpty

/-- Cell of a row at a column index (out of range is never produced by the
modelled code; it reads as missing). -/
def cellAt (r : List (Option ℚ)) (i : Nat) : Option ℚ := (r.get? i).getD none

/-- Index of a column by name (first occurrence), `df.columns.get_loc`-style. -/
def colIdx (d : DF) (c : String) : Option Nat := d.cols.findIdx? (fun x => x == c)

/-- The values of column `c` (empty when the column is absent). -/
def getColVals (d : DF) (c : String) : List (Option ℚ) :=
  match colIdx d c with
  | some i => d.rows.map (fun r => cellAt r i)
  | none => []

/-- `df[c] = vals`: replace the column in place when it exists, otherwise
append it as the last column (pandas column assignment). -/
def setCol (d : DF) (c : String) (vals : List (Option ℚ)) : DF :=
  match colIdx d c with
  | some i => { cols := d.cols, rows := List.zipWith (fun r v => r.set i v) d.rows vals }
  | none => { cols := d.cols ++ [c], rows := List.zipWith (fun r v => r ++ [v]) d.rows vals }

/-- `df[cs]` column projection; raises `KeyError` when a name is absent. -/
def selectColsE (d : DF) (cs : List String) : Except String DF :=
  if cs.all (fun c => d.cols.contains c) then
    .ok { cols := cs,
          rows := d.rows.map (fun r => cs.map (fun c =>
            match colIdx d c with
            | some i => cellAt r i
            | none => none)) }
  else .error "KeyError: column not found"

/-- Comparator placing missing keys (`NaN`) last, used when sorting rows and
merge keys by a time/key column. -/
def keyLe : Option ℚ → Option ℚ → Bool
  | some a, some b => a ≤ b
  | some _, none => true
  | none, some _ => false
  | none, none => true

/-- Insert into a sorted list, keeping earlier elements first among ties
(stable insertion). -/
def insertLe {α : Type} (le : α → α → Bool) (a : α) : List α → List α
  | [] => [a]
  | b :: bs => if le a b then a :: b :: bs else b :: insertLe le a bs

/-- Stable insertion sort by a boolean comparator. -/
def sortByB {α : Type} (le : α → α → Bool) : List α → List α
  | [] => []
  | a :: as => insertLe le a (sortByB le as)

/-- `df.sort_values(c)` (no-op when the column is absent; the modelled call
sites guard the presence themselves where the source does).  `sort_values`
leaves the column set unchanged and permutes rows by the key, `NaN` last.
The source uses pandas' default unstable quicksort; no theorem below depends
on the relative order of tied keys, so a stable sort is used. -/
def sortValues (d : DF) (c : String) : DF :=
  match colIdx d c with
  | some i =>
    { cols := d.cols,
      rows := sortByB (fun r1 r2 => keyLe (cellAt r1 i) (cellAt r2 i)) d.rows }
  | none => d

/-- `df.sort_values(c)` raising `KeyError` when the column is absent. -/
def sortValuesE (d : DF) (c : String) : Except String DF :=
  match colIdx d c with
  | some _ => .ok (sortValues d c)
  | none => .error "KeyError: _plot_time_"

/-- Deduplicate, keeping the first occurrence of each element. -/
def dedupKeysAux (acc : List (Option ℚ)) : List (Option ℚ) → List (Option ℚ)
  | [] => acc
  | k :: ks => if acc.any (fun x => decide (x = k)) then dedupKeysAux acc ks
               else dedupKeysAux (acc ++ [k]) ks

/-- The sorted distinct key values of an outer merge (pandas sorts the keys
of a `how="outer"` merge; `NaN` keys sort last and match each other). -/
def sortedUniqueKeys (ks : List (Option ℚ)) : List (Option ℚ) :=
  sortByB keyLe (dedupKeysAux [] ks)

/-- Row indices of `rows` whose key cell at `i` equals `v`. -/
def rowsWithKey (rows : List (List (Option ℚ))) (i : Nat) (v : Option ℚ) :
    List (List (Option ℚ)) :=
  rows.filter (fun r => decide (cellAt r i = v))

/-- `pd.merge(l, r, on=k, how="outer", suffixes=(ls, rs))`.

The key column keeps its position on the left side; every other column
present on both sides is renamed with the corresponding suffix; the result
rows are the SQL full outer join, grouped by key value with keys sorted
ascending (`NaN` keys last, matching each other), matching pandas'
documented `how="outer"` behaviour.  Raises `KeyError` when `k` is missing
from either side. -/
def outerMerge (l r : DF) (k : String) (ls rs : String) : Except String DF :=
  match colIdx l k, colIdx r k with
  | some li, some ri =>
    let lcols := l.cols.map (fun c =>
      if c ≠ k && r.cols.contains c then c ++ ls else c)
    let rkeepIdx := (List.range r.cols.length).filter (fun i => i ≠ ri)
    let rkeepNames := rkeepIdx.map (fun i => r.cols.getD i "")
    let rcols := rkeepNames.map (fun c => if l.cols.contains c then c ++ rs else c)
    let keys := sortedUniqueKeys
      (l.rows.map (fun row => cellAt row li) ++ r.rows.map (fun row => cellAt row ri))
    let blankLeft := fun (v : Option ℚ) =>
      (List.range l.cols.length).map (fun j => if j = li then v else none)
    let keptCells := fun (row : List (Option ℚ)) => rkeepIdx.map (fun i => cellAt row i)
    let rows := keys.flatMap (fun v =>
      let lm := rowsWithKey l.rows li v
      let rm := rowsWithKey r.rows ri v
      match lm, rm with
      | [], [] => []
      | lrows, [] => lrows.map (fun lrow => lrow ++ List.replicate rkeepIdx.length none)
      | [], rrows => rrows.map (fun rrow => blankLeft v ++ keptCells rrow)
      | lrows, rrows => lrows.flatMap (fun lrow => rrows.map (fun rrow => lrow ++ keptCells rrow)))
    .ok { cols := lcols ++ rcols, rows := rows }
  | _, _ => .error "KeyError: _plot_time_"

/-- `pd.concat([l, r], ignore_index=True)`: union of columns (left order
first, new right columns appended), rows of both frames reindexed to the
union, missing columns filled with `NaN`. -/
def concatDF (l r : DF) : DF :=
  let cols := l.cols ++ r.cols.filter (fun c => !l.cols.contains c)
  let reindex := fun (d : DF) (row : List (Option ℚ)) => cols.map (fun c =>
    match colIdx d c with
    | some i => cellAt row i
    | none => none)
  { cols := cols, rows := l.rows.map (reindex l) ++ r.rows.map (reindex r) }

/-- `pd.merge_asof(l, r, on=k, tolerance=tol, direction="nearest")` with
pandas' default suffixes `("_x", "_y")`.

Both inputs are sorted by `k` at the call sites (the source sorts them
immediately before the call).  For each left row the nearest right key
within `tol` (inclusive) wins; among equidistant keys the earlier
(backward) key wins.  Raises on a missing key column or null merge keys,
as pandas does. -/
def mergeAsof (l r : DF) (k : String) (tol : ℚ) : Except String DF :=
  match colIdx l k, colIdx r k with
  | some li, some ri =>
    if (l.rows.any (fun row => (cellAt row li).isNone)) ||
       (r.rows.any (fun row => (cellAt row ri).isNone)) then
      .error "ValueError: Merge keys contain null values"
    else
      let lcols := l.cols.map (fun c =>
        if c ≠ k && r.cols.contains c then c ++ "_x" else c)
      let rkeepIdx := (List.range r.cols.length).filter (fun i => i ≠ ri)
      let rkeepNames := rkeepIdx.map (fun i => r.cols.getD i "")
      let rcols := rkeepNames.map (fun c => if l.cols.contains c then c ++ "_y" else c)
      let rows := l.rows.map (fun lrow =>
        let kv := (cellAt lrow li).getD 0
        let best := r.rows.foldl (fun (acc : Option (ℚ × List (Option ℚ))) rrow =>
          match cellAt rrow ri with
          | some rv =>
            if |kv - rv| ≤ tol then
              match acc with
              | none => some (rv, rrow)
              | some (bv, _) =>
                if |kv - rv| < |kv - bv| || (|kv - rv| = |kv - bv| && rv ≤ bv) then
                  some (rv, rrow)
                else acc
            else acc
          | none => acc) none
        match best with
        | some (_, rrow) => lrow ++ rkeepIdx.map (fun i => cellAt rrow i)
        | none => lrow ++ List.replicate rkeepIdx.length none)
      .ok { cols := lcols ++ rcols, rows := rows }
  | _, _ => .error "KeyError: _plot_time_"

/-! ## Data model (`log_viewer/core/models.py`) -/

/-- `TimeMode` enum. -/
inductive TimeMode
  | ABSOLUTE
  | RELATIVE
  | CUSTOM_OFFSET
deriving DecidableEq, Repr

/-- `JoinStrategy` enum. -/
inductive JoinStrategy
  | TIME_NEAREST
  | TIME_EXACT
  | ALTERNATIVE_KEY
  | APPEND_SEGMENT
deriving DecidableEq, Repr

/-- `CompareMode` enum. -/
inductive CompareMode
  | OVERLAY
  | CONCATENATE
deriving DecidableEq, Repr

/-- `ChannelMetadata` dataclass. -/
structure ChannelMetadata where
  original_name : String
  display_name : String
  unit : String := ""
  category : String := "Unknown"
  description : String := ""
deriving DecidableEq, Repr

/-- `FilterState` dataclass.  `channel_filters` is an insertion-ordered dict
`channel -> (min, max)`. -/
structure FilterState where
  time_min : Option ℚ := none
  time_max : Option ℚ := none
  channel_filters : List (String × (Option ℚ × Option ℚ)) := []
  text_search : String := ""
  category_filter : List String := []
  unit_filter : List String := []
  enabled : Bool := true
deriving DecidableEq, Repr

/-- `DataFile` dataclass.  `filepath` is modelled by its (already
`Path`-normalised) string; `dataframe` is `none` when no data is loaded. -/
structure DataFile where
  id : String := ""
  filepath : String := ""
  filename : String := ""
  delimiter : String := ","
  encoding : String := "utf-8"
  headers : List String := []
  channel_metadata : List (String × ChannelMetadata) := []
  dataframe : Option DF := none
  time_column : String := ""
  time_mode : TimeMode := .RELATIVE
  time_offset : ℚ := 0
  time_scale : ℚ := 1
  join_strategy : Option JoinStrategy := none
  join_key : Option String := none
  join_tolerance : ℚ := 1/1000
deriving DecidableEq, Repr

/-- `Test` dataclass. -/
structure Test where
  id : String := ""
  name : String := "New Test"
  description : String := ""
  data_files : List DataFile := []
  canonical_headers : List String := []
  canonical_metadata : List (String × ChannelMetadata) := []
  primary_time_column : String := ""
  filter_state : FilterState := {}
  compare_time_offset : ℚ := 0
  color : String := "#1f77b4"
deriving DecidableEq, Repr

/-- `HeaderDiff` dataclass; `fuzzy_matches` is an insertion-ordered dict
`extra-header -> suggested missing header`. -/
structure HeaderDiff where
  missing : List String := []
  extra : List String := []
  matched : List String := []
  fuzzy_matches : List (String × String) := []
deriving DecidableEq, Repr

/-- `HeaderDiff.has_differences`. -/
def HeaderDiff.has_differences (h : HeaderDiff) : Bool :=
  !h.missing.isEmpty || !h.extra.isEmpty

/-- Ordered-dict lookup. -/
def dictGet {α : Type} (d : List (String × α)) (k : String) : Option α :=
  match d.find? (fun p => p.1 == k) with
  | some p => some p.2
  | none => none

/-- Ordered-dict insertion: updating an existing key keeps its position,
a new key is appended (CPython dict semantics). -/
def dictInsert {α : Type} (d : List (String × α)) (k : String) (v : α) :
    List (String × α) :=
  if d.any (fun p => p.1 == k) then
    d.map (fun p => if p.1 == k then (k, v) else p)
  else d ++ [(k, v)]

/-! ## `FilterState.apply_to_dataframe` -/

/-- `cell >= mn` as pandas evaluates it: a missing value compares `False`. -/
def cellGe (x : Option ℚ) (mn : ℚ) : Bool :=
  match x with
  | some v => mn ≤ v
  | none => false

/-- `cell <= mx`, missing values compare `False`. -/
def cellLe (x : Option ℚ) (mx : ℚ) : Bool :=
  match x with
  | some v => v ≤ mx
  | none => false

/-- The `[min, max]` window test one filter contributes to the row mask:
each bound applies only when it is set. -/
def boundMask (x : Option ℚ) (mn mx : Option ℚ) : Bool :=
  (match mn with
   | some a => cellGe x a
   | none => true) &&
  (match mx with
   | some b => cellLe x b
   | none => true)

/-- `FilterState.apply_to_dataframe(df, time_column)` (models.py 111-133):
returns the input untouched when disabled or empty, otherwise builds a
boolean mask — time window when the time column exists, then `&=` over the
channel filters for channels present in the frame — and keeps the masked
rows in order. -/
def FilterState.apply_to_dataframe (fs : FilterState) (d : DF) (time_column : String) : DF :=
  if !fs.enabled || d.isEmpty then d
  else
    let timePart := fun (r : List (Option ℚ)) =>
      match colIdx d time_column with
      | some i => boundMask (cellAt r i) fs.time_min fs.time_max
      | none => true
    let mask := fun (r : List (Option ℚ)) =>
      fs.channel_filters.foldl (fun acc p =>
        match colIdx d p.1 with
        | some i => acc && boundMask (cellAt r i) p.2.1 p.2.2
        | none => acc) (timePart r)
    { cols := d.cols, rows := d.rows.filter mask }

/-! ## `DataFile` time pipeline -/

/-- `DataFile.get_time_data` (models.py 169-179): `None` when no data is
loaded or the time column is absent; otherwise the raw column, re-zeroed on
its first sample in `RELATIVE` mode, then `(t + time_offset) * time_scale`
cell-wise (missing cells propagate). -/
def getTimeData (f : DataFile) : Option (List (Option ℚ)) :=
  match f.dataframe with
  | none => none
  | some d =>
    if d.cols.contains f.time_column then
      let td := getColVals d f.time_column
      let td := if f.time_mode = .RELATIVE then
          match td with
          | [] => td
          | t0 :: _ => td.map (fun x => fsub x t0)
        else td
      some (td.map (fun x => x.map (fun v => (v + f.time_offset) * f.time_scale)))
    else none

/-- `DataFile.get_plot_time` simply forwards to `get_time_data`. -/
def getPlotTime (f : DataFile) : Option (List (Option ℚ)) := getTimeData f

/-- `np.min` over a float array: `NaN` when any entry is `NaN`, undefined
(never called by the modelled code) on an empty array. -/
def npMin (l : List (Option ℚ)) : Option ℚ :=
  if l.any (fun x => x.isNone) then none
  else
    match l.filterMap id with
    | [] => none
    | a :: as => some (as.foldl min a)

/-- `np.max` over a float array, `NaN`-propagating like `npMin`. -/
def npMax (l : List (Option ℚ)) : Option ℚ :=
  if l.any (fun x => x.isNone) then none
  else
    match l.filterMap id with
    | [] => none
    | a :: as => some (as.foldl max a)

/-- `DataFile.get_time_range` (models.py 185-190): `(0, 0)` when the data is
absent or empty, otherwise `(np.min, np.max)` of the transformed series
(`none` components model the `NaN` that `np.min`/`np.max` return when the
series contains a missing value). -/
def fileTimeRange (f : DataFile) : Option ℚ × Option ℚ :=
  match getTimeData f with
  | none => (some 0, some 0)
  | some ts =>
    if ts.isEmpty then (some 0, some 0)
    else (npMin ts, npMax ts)

/-- One step of Python's `min_t = min(min_t, t_min)` fold in
`Test.get_time_range`: `min(x, nan)` returns `x` (the comparison is false),
so a `NaN` file range leaves the accumulator unchanged; `none` accumulator
models the initial `float('inf')`. -/
def combineMin (acc : Option ℚ) (x : Option ℚ) : Option ℚ :=
  match x with
  | none => acc
  | some v =>
    match acc with
    | none => some v
    | some a => some (min a v)

/-- Dual of `combineMin` for the running maximum (initial `-inf`). -/
def combineMax (acc : Option ℚ) (x : Option ℚ) : Option ℚ :=
  match x with
  | none => acc
  | some v =>
    match acc with
    | none => some v
    | some a => some (max a v)

/-- `Test.get_time_range` (models.py 374-383): fold the member files'
ranges from the `(inf, -inf)` sentinels, returning `(0, 0)` when the
sentinel was never replaced. -/
def testTimeRange (t : Test) : ℚ × ℚ :=
  let r := t.data_files.foldl (fun (acc : Option ℚ × Option ℚ) f =>
    let p := fileTimeRange f
    (combineMin acc.1 p.1, combineMax acc.2 p.2)) (none, none)
  match r.1, r.2 with
  | some mn, some mx => (mn, mx)
  | _, _ => (0, 0)

/-! ## Canonical headers (`Test.add_data_file` / `_update_canonical_headers`)

`_update_canonical_headers` builds `all_headers` as a Python `set` and then
iterates it; the iteration order is hash-dependent and unspecified, so it is
passed in as an explicit enumeration `enum`, constrained by `validEnum`. -/

/-- `enum` is a possible iteration order of the set of all member files'
headers: duplicate-free and containing exactly the union's elements. -/
def validEnum (enum : List String) (files : List DataFile) : Prop :=
  enum.Nodup ∧
  (∀ h ∈ enum, h ∈ files.flatMap (fun f => f.headers)) ∧
  (∀ h ∈ files.flatMap (fun f => f.headers), h ∈ enum)

/-- The `for h in all_headers: if h not in new_headers: new_headers.append(h)`
loop of `_update_canonical_headers`. -/
def pyAppendNew (acc : List String) : List String → List String
  | [] => acc
  | h :: hs => if acc.contains h then pyAppendNew acc hs else pyAppendNew (acc ++ [h]) hs

/-- `Test._update_canonical_headers` (models.py 290-311), with the set
iteration order `enum`: keep existing canonical headers still present in the
union, append unseen union members, and add each file's metadata for headers
not yet in `canonical_metadata` (first seen wins). -/
def updateCanonicalHeaders (enum : List String) (t : Test) : Test :=
  let keep := t.canonical_headers.filter (fun h => enum.contains h)
  let newHeaders := pyAppendNew keep enum
  let newMeta := t.data_files.foldl (fun cm f =>
    f.channel_metadata.foldl (fun cm p =>
      match dictGet cm p.1 with
      | some _ => cm
      | none => cm ++ [p]) cm) t.canonical_metadata
  { t with canonical_headers := newHeaders, canonical_metadata := newMeta }

/-- `Test.add_data_file` (models.py 269-272). -/
def addDataFile (enum : List String) (t : Test) (f : DataFile) : Test :=
  updateCanonicalHeaders enum { t with data_files := t.data_files ++ [f] }

/-- Remove the first file with the given id, as the `for i, df ...: pop(i)`
loop does; `none` when no file matches. -/
def removeById (fid : String) : List DataFile → Option (List DataFile)
  | [] => none
  | f :: fs =>
    if f.id = fid then some fs
    else (removeById fid fs).map (fun r => f :: r)

/-- `Test.remove_data_file` (models.py 274-281): returns the updated test
and whether a file was removed (canonical headers are only recomputed when
one was). -/
def removeDataFile (enum : List String) (t : Test) (fid : String) : Test × Bool :=
  match removeById fid t.data_files with
  | some fs => (updateCanonicalHeaders enum { t with data_files := fs }, true)
  | none => (t, false)

/-! ## `Test.get_merged_dataframe` (models.py 313-372) -/

/-- The per-file frame the merge loop builds: a copy of the file's data with
the derived `_plot_time_` column when the test's time column is present
(transformed time when `get_plot_time()` produced one, else the raw time
column). -/
def mkTemp (timeCol : String) (f : DataFile) (d : DF) : DF :=
  match getPlotTime f with
  | some pt =>
    if d.cols.contains timeCol then setCol d "_plot_time_" pt else d
  | none =>
    if d.cols.contains timeCol then setCol d "_plot_time_" (getColVals d timeCol)
    else d

/-- Drop every column whose name ends with `"_dup"`
(`result[[c for c in result.columns if not c.endswith("_dup")]]`). -/
def dropDupCols (d : DF) : DF :=
  let keepIdx := (List.range d.cols.length).filter
    (fun i => !strEndsWith (d.cols.getD i "") "_dup")
  { cols := keepIdx.map (fun i => d.cols.getD i ""),
    rows := d.rows.map (fun r => keepIdx.map (fun i => cellAt r i)) }

/-- The `for df in self.data_files` loop of `get_merged_dataframe`: files
with no loaded data are skipped; the first remaining file seeds the result;
each later file is folded in by the join strategy recorded on it
(`APPEND_SEGMENT` concatenates, `TIME_NEAREST` is a sorted `merge_asof`,
anything else — `TIME_EXACT`, `ALTERNATIVE_KEY` or unset — is the default
outer merge on `_plot_time_` with `("", "_dup")` suffixes followed by
dropping the `"_dup"` columns).  A raised pandas error aborts the loop. -/
def mergeFold (timeCol : String) (res : Option DF) :
    List DataFile → Except String (Option DF)
  | [] => .ok res
  | f :: rest =>
    match f.dataframe with
    | none => mergeFold timeCol res rest
    | some d =>
      let temp := mkTemp timeCol f d
      match res with
      | none => mergeFold timeCol (some temp) rest
      | some r =>
        match f.join_strategy with
        | some .APPEND_SEGMENT => mergeFold timeCol (some (concatDF r temp)) rest
        | some .TIME_NEAREST => do
          let s1 ← sortValuesE r "_plot_time_"
          let s2 ← sortValuesE temp "_plot_time_"
          let m ← mergeAsof s1 s2 "_plot_time_" f.join_tolerance
          mergeFold timeCol (some m) rest
        | _ => do
          let m ← outerMerge r temp "_plot_time_" "" "_dup"
          mergeFold timeCol (some (dropDupCols m)) rest

/-- `Test.get_merged_dataframe(apply_filter)`: empty frame for a test with
no files (or none with loaded data); otherwise the folded result, sorted by
`_plot_time_` when that column exists, and narrowed by the filter state when
requested and enabled. -/
def getMergedDataframe (t : Test) (applyFilter : Bool) : Except String DF :=
  match t.data_files with
  | [] => .ok emptyDF
  | f0 :: _ =>
    let timeCol := if t.primary_time_column = "" then f0.time_column
                   else t.primary_time_column
    match mergeFold timeCol none t.data_files with
    | .error e => .error e
    | .ok none => .ok emptyDF
    | .ok (some r) =>
      let r := if r.cols.contains "_plot_time_" then sortValues r "_plot_time_" else r
      let r := if applyFilter && t.filter_state.enabled then
          FilterState.apply_to_dataframe t.filter_state r "_plot_time_"
        else r
      .ok r

/-! ## `DataMerger` (merge_handler.py) -/

/-- `DataMerger.merge_on_alternative_key(base, new, key, how="outer")`
(merge_handler.py 160-194): project the incoming frame onto the key plus
its columns not already on the base side, then outer-join on the key
(pandas default suffixes; none apply after the projection). -/
def mergeOnAlternativeKey (base_df new_df : DF) (key_column : String) :
    Except String DF :=
  let new_cols := key_column ::
    new_df.cols.filter (fun c => c ≠ key_column && !base_df.cols.contains c)
  match selectColsE new_df new_cols with
  | .error e => .error e
  | .ok new_df_filtered => outerMerge base_df new_df_filtered key_column "_x" "_y"

/-! ## `TestComparer` (merge_handler.py 230-337) -/

/-- Shift the `_plot_time_` column by the (possibly `NaN`) cumulative
offset: `df_copy["_plot_time_"] = df_copy["_plot_time_"] + offset`. -/
def shiftPlotTime (d : DF) (off : Option ℚ) : DF :=
  setCol d "_plot_time_" ((getColVals d "_plot_time_").map (fun x => fadd x off))

/-- `Series.max()` with pandas' default `skipna=True`: `NaN` (here `none`)
only when no non-missing value exists. -/
def colMaxSkipNa (vals : List (Option ℚ)) : Option ℚ :=
  match vals.filterMap id with
  | [] => none
  | a :: as => some (as.foldl max a)

/-- The `CONCATENATE` branch of `prepare_tests_for_comparison`
(merge_handler.py 269-297): `i` is the `enumerate` index, `off` the running
`cumulative_offset` (an `Option ℚ` float, since a `NaN` column maximum
poisons it), `acc` the result dict.  Empty merged frames are skipped without
touching `i`'s role or `off`. -/
def prepareConcatAux (gap : ℚ) (selected : List String) :
    Nat → Option ℚ → List (String × DF) → List Test →
    Except String (List (String × DF))
  | _, _, acc, [] => .ok acc
  | i, off, acc, t :: ts =>
    match getMergedDataframe t true with
    | .error e => .error e
    | .ok df =>
      if df.isEmpty then prepareConcatAux gap selected (i + 1) off acc ts
      else
        let keep := "_plot_time_" :: selected.filter (fun c => df.cols.contains c)
        match selectColsE df keep with
        | .error e => .error e
        | .ok dfc =>
          let dfc := if i > 0 then shiftPlotTime dfc off else dfc
          let acc := dictInsert acc t.id dfc
          let off := if dfc.cols.contains "_plot_time_" then
              fadd (colMaxSkipNa (getColVals dfc "_plot_time_")) (some gap)
            else off
          prepareConcatAux gap selected (i + 1) off acc ts

/-- The `OVERLAY` branch of `prepare_tests_for_comparison`
(merge_handler.py 254-267). -/
def prepareOverlayAux (selected : List String) :
    List (String × DF) → List Test → Except String (List (String × DF))
  | acc, [] => .ok acc
  | acc, t :: ts =>
    match getMergedDataframe t true with
    | .error e => .error e
    | .ok df =>
      if df.isEmpty then prepareOverlayAux selected acc ts
      else
        let keep := "_plot_time_" :: selected.filter (fun c => df.cols.contains c)
        match selectColsE df keep with
        | .error e => .error e
        | .ok dfc => prepareOverlayAux selected (dictInsert acc t.id dfc) ts

/-- `TestComparer.prepare_tests_for_comparison(tests, selected_channels)`
for a comparer in the given mode with the given gap. -/
def prepareTestsForComparison (mode : CompareMode) (gap : ℚ)
    (tests : List Test) (selected : List String) :
    Except String (List (String × DF)) :=
  match mode with
  | .OVERLAY => prepareOverlayAux selected [] tests
  | .CONCATENATE => prepareConcatAux gap selected 0 (some 0) [] tests

/-- The `for i, test in enumerate(tests)` fold of the `CONCATENATE` branch
of `get_combined_time_range`: gap added for every test after the first,
then the test's duration. -/
def concatRangeAux (gap : ℚ) : Nat → ℚ → List Test → ℚ
  | _, c, [] => c
  | i, c, t :: ts =>
    let p := testTimeRange t
    let d := p.2 - p.1
    concatRangeAux gap (i + 1) ((if i > 0 then c + gap else c) + d) ts

/-- `TestComparer.get_combined_time_range(tests)` (merge_handler.py
301-337).  The `OVERLAY` fold starts from the `(inf, -inf)` sentinels;
since `Test.get_time_range` never returns `NaN` or infinite values and the
list is non-empty in that branch, the fold over the first element's range
is exact. -/
def getCombinedTimeRange (mode : CompareMode) (gap : ℚ) (tests : List Test) :
    ℚ × ℚ :=
  match tests with
  | [] => (0, 1)
  | t0 :: rest =>
    match mode with
    | .OVERLAY =>
      rest.foldl (fun (acc : ℚ × ℚ) t =>
        let p := testTimeRange t
        (min acc.1 p.1, max acc.2 p.2)) (testTimeRange t0)
    | .CONCATENATE => (0, concatRangeAux gap 0 0 (t0 :: rest))

/-! ## `compute_header_diff` (io_handler.py 292-337)

The similarity scorer is external (`rapidfuzz.fuzz.token_sort_ratio`, an
integer-rounded 0–100 score here modelled as `ℕ`), so it is a parameter.
`test_set`/`file_set` are Python sets; their unspecified iteration orders
are passed in as the enumerations `eT` and `eF` (`Nodup` lists carrying the
same elements as the given header lists). -/

/-- Python `sorted` on strings: lexicographic by code points. -/
def sortStr (l : List String) : List String := List.insertionSort (· ≤ ·) l

/-- One iteration of the inner `for missing_h in missing` loop: the running
`(best_match, best_score)` pair is replaced when
`score > best_score and score >= fuzzy_threshold`. -/
def bestStep (score : String → String → ℕ) (threshold : ℕ) (extra_h : String)
    (acc : Option String × ℕ) (missing_h : String) : Option String × ℕ :=
  let s := score (pyLower extra_h) (pyLower missing_h)
  if s > acc.2 && s ≥ threshold then (some missing_h, s) else acc

/-- The inner loop: fold `bestStep` from `(None, 0)`. -/
def bestFuzzy (score : String → String → ℕ) (threshold : ℕ) (extra_h : String)
    (missing : List String) : Option String × ℕ :=
  missing.foldl (bestStep score threshold extra_h) (none, 0)

/-- `compute_header_diff(test_headers, file_headers, fuzzy_threshold)` with
the set iteration orders `eT` (of `set(test_headers)`) and `eF` (of
`set(file_headers)`) made explicit: exact-set results sorted
lexicographically, plus the fuzzy suggestion dict (kept only when the best
match is truthy, i.e. not `None` and not the empty string). -/
def computeHeaderDiff (eT eF : List String) (score : String → String → ℕ)
    (threshold : ℕ) : HeaderDiff :=
  let matched := eT.filter (fun h => eF.contains h)
  let missing := eT.filter (fun h => !eF.contains h)
  let extra := eF.filter (fun h => !eT.contains h)
  let fuzzy := extra.foldl (fun fm extra_h =>
    match bestFuzzy score threshold extra_h missing with
    | (some best_match, _) =>
      if best_match ≠ "" then fm ++ [(extra_h, best_match)] else fm
    | (none, _) => fm) []
  { missing := sortStr missing, extra := sortStr extra,
    matched := sortStr matched, fuzzy_matches := fuzzy }

/-! ## `FilterManager.get_filtered_channels` (filter_manager.py 141-186) -/

/-- The `FilterManager` test registry, modelled as an insertion-ordered
dict `test id -> Test`. -/
def registryGet (tests : List (String × Test)) (tid : String) : Option Test :=
  dictGet tests tid

/-- The `for ch in all_channels` loop of `get_filtered_channels`: each of
the three `continue` guards skips the channel exactly when its filter is
active (non-empty), the raw test fails, and — for the metadata-dependent
part — a canonical metadata entry exists whose field also fails. -/
def filteredChannelsLoop (test : Test) : List String → List String
  | [] => []
  | ch :: rest =>
    let fs := test.filter_state
    let skipText := fs.text_search ≠ "" &&
      !strIn (pyLower fs.text_search) (pyLower ch) &&
      (match dictGet test.canonical_metadata ch with
       | some meta => !strIn (pyLower fs.text_search) (pyLower meta.display_name)
       | none => false)
    let skipCat := !fs.category_filter.isEmpty &&
      (match dictGet test.canonical_metadata ch with
       | some meta => !fs.category_filter.contains meta.category
       | none => false)
    let skipUnit := !fs.unit_filter.isEmpty &&
      (match dictGet test.canonical_metadata ch with
       | some meta => !fs.unit_filter.contains meta.unit
       | none => false)
    if skipText || skipCat || skipUnit then filteredChannelsLoop test rest
    else ch :: filteredChannelsLoop test rest

/-- `FilterManager.get_filtered_channels(test_id, all_channels)`
(filter_manager.py 141-186): the input unchanged for an unregistered id,
otherwise the loop above. -/
def getFilteredChannels (tests : List (String × Test)) (tid : String)
    (all_channels : List String) : List String :=
  match registryGet tests tid with
  | none => all_channels
  | some test => filteredChannelsLoop test all_channels

/-! ## Serialization (`to_dict` / `from_dict`)

The JSON dictionaries are modelled by records holding exactly the keys the
`to_dict` methods emit (enum values serialised by name, `null` as `none`).
`from_dict` calls that can raise (`TimeMode[...]` / `JoinStrategy[...]` on
an unknown name) return `Option`. -/

/-- `Path(p).name`: final path component ('' for the paths `''`/`'.'`,
whose `Path` is `.`). -/
def pathName (p : String) : String :=
  if p = "" || p = "." then ""
  else ((p.splitOn "/").filter (fun s => s ≠ "")).getLastD ""

/-- `TimeMode.name`. -/
def TimeMode.pyName : TimeMode → String
  | .ABSOLUTE => "ABSOLUTE"
  | .RELATIVE => "RELATIVE"
  | .CUSTOM_OFFSET => "CUSTOM_OFFSET"

/-- `TimeMode[s]` (raises `KeyError`, i.e. `none`, on other strings). -/
def TimeMode.ofPyName : String → Option TimeMode
  | "ABSOLUTE" => some .ABSOLUTE
  | "RELATIVE" => some .RELATIVE
  | "CUSTOM_OFFSET" => some .CUSTOM_OFFSET
  | _ => none

/-- `JoinStrategy.name`. -/
def JoinStrategy.pyName : JoinStrategy → String
  | .TIME_NEAREST => "TIME_NEAREST"
  | .TIME_EXACT => "TIME_EXACT"
  | .ALTERNATIVE_KEY => "ALTERNATIVE_KEY"
  | .APPEND_SEGMENT => "APPEND_SEGMENT"

/-- `JoinStrategy[s]`. -/
def JoinStrategy.ofPyName : String → Option JoinStrategy
  | "TIME_NEAREST" => some .TIME_NEAREST
  | "TIME_EXACT" => some .TIME_EXACT
  | "ALTERNATIVE_KEY" => some .ALTERNATIVE_KEY
  | "APPEND_SEGMENT" => some .APPEND_SEGMENT
  | _ => none

/-- The dictionary `ChannelMetadata.to_dict` emits. -/
structure ChannelMetadataDict where
  original_name : String
  display_name : String
  unit : String
  category : String
  description : String
deriving DecidableEq, Repr

/-- `ChannelMetadata.to_dict` (models.py 53-61). -/
def ChannelMetadata.toDict (m : ChannelMetadata) : ChannelMetadataDict :=
  { original_name := m.original_name, display_name := m.display_name,
    unit := m.unit, category := m.category, description := m.description }

/-- `ChannelMetadata.from_dict` (models.py 63-72). -/
def ChannelMetadata.fromDict (d : ChannelMetadataDict) : ChannelMetadata :=
  { original_name := d.original_name, display_name := d.display_name,
    unit := d.unit, category := d.category, description := d.description }

/-- The dictionary `FilterState.to_dict` emits. -/
structure FilterStateDict where
  time_min : Option ℚ
  time_max : Option ℚ
  channel_filters : List (String × (Option ℚ × Option ℚ))
  text_search : String
  category_filter : List String
  unit_filter : List String
  enabled : Bool
deriving DecidableEq, Repr

/-- `FilterState.to_dict` (models.py 86-96). -/
def FilterState.toDict (fs : FilterState) : FilterStateDict :=
  { time_min := fs.time_min, time_max := fs.time_max,
    channel_filters := fs.channel_filters, text_search := fs.text_search,
    category_filter := fs.category_filter, unit_filter := fs.unit_filter,
    enabled := fs.enabled }

/-- `FilterState.from_dict` (models.py 98-109). -/
def FilterState.fromDict (d : FilterStateDict) : FilterState :=
  { time_min := d.time_min, time_max := d.time_max,
    channel_filters := d.channel_filters, text_search := d.text_search,
    category_filter := d.category_filter, unit_filter := d.unit_filter,
    enabled := d.enabled }

/-- The dictionary `DataFile.to_dict` emits (no dataframe). -/
structure DataFileDict where
  id : String
  filepath : String
  filename : String
  delimiter : String
  encoding : String
  headers : List String
  channel_metadata : List (String × ChannelMetadataDict)
  time_column : String
  time_mode : String
  time_offset : ℚ
  time_scale : ℚ
  join_strategy : Option String
  join_key : Option String
  join_tolerance : ℚ
deriving DecidableEq, Repr

/-- `DataFile.to_dict` (models.py 198-215): everything but the raw data;
`join_strategy` by name or `null`. -/
def DataFile.toDict (f : DataFile) : DataFileDict :=
  { id := f.id, filepath := f.filepath, filename := f.filename,
    delimiter := f.delimiter, encoding := f.encoding, headers := f.headers,
    channel_metadata := f.channel_metadata.map (fun p => (p.1, p.2.toDict)),
    time_column := f.time_column, time_mode := f.time_mode.pyName,
    time_offset := f.time_offset, time_scale := f.time_scale,
    join_strategy := f.join_strategy.map JoinStrategy.pyName,
    join_key := f.join_key, join_tolerance := f.join_tolerance }

/-- `DataFile.__post_init__` on a freshly constructed file: when `filename`
is empty it is replaced by the path's final component (`Path` truthiness is
unconditional, so the guard is just the empty-filename test). -/
def dataFilePostInit (f : DataFile) : DataFile :=
  if f.filename = "" then { f with filename := pathName f.filepath }
  else f

/-- `DataFile.from_dict` (models.py 217-240): rebuild the file without its
dataframe; `none` when an enum name does not resolve (`KeyError`).  The
`if data.get("join_strategy")` truthiness test treats `null` and the empty
string alike. -/
def DataFile.fromDict (d : DataFileDict) : Option DataFile := do
  let tm ← TimeMode.ofPyName d.time_mode
  let js ← match d.join_strategy with
    | some s => if s = "" then pure none else (JoinStrategy.ofPyName s).map some
    | none => pure none
  pure (dataFilePostInit
    { id := d.id, filepath := d.filepath, filename := d.filename,
      delimiter := d.delimiter, encoding := d.encoding, headers := d.headers,
      channel_metadata := d.channel_metadata.map
        (fun p => (p.1, ChannelMetadata.fromDict p.2)),
      dataframe := none,
      time_column := d.time_column, time_mode := tm,
      time_offset := d.time_offset, time_scale := d.time_scale,
      join_strategy := js, join_key := d.join_key,
      join_tolerance := d.join_tolerance })

/-- The dictionary `Test.to_dict` emits. -/
structure TestDict where
  id : String
  name : String
  description : String
  data_files : List DataFileDict
  canonical_headers : List String
  canonical_metadata : List (String × ChannelMetadataDict)
  primary_time_column : String
  filter_state : FilterStateDict
  compare_time_offset : ℚ
  color : String
deriving DecidableEq, Repr

/-- `Test.to_dict` (models.py 406-419). -/
def Test.toDict (t : Test) : TestDict :=
  { id := t.id, name := t.name, description := t.description,
    data_files := t.data_files.map DataFile.toDict,
    canonical_headers := t.canonical_headers,
    canonical_metadata := t.canonical_metadata.map (fun p => (p.1, p.2.toDict)),
    primary_time_column := t.primary_time_column,
    filter_state := t.filter_state.toDict,
    compare_time_offset := t.compare_time_offset, color := t.color }

/-- The `for df_data in data.get("data_files", [])` loop of
`Test.from_dict`: deserialize each file in order, a failure propagating. -/
def dataFilesFromDict : List DataFileDict → Option (List DataFile)
  | [] => some []
  | d :: ds => do
    let f ← DataFile.fromDict d
    let fs ← dataFilesFromDict ds
    pure (f :: fs)

/-- `Test.from_dict` (models.py 421-446): rebuild the test, its files (each
via `DataFile.from_dict`, failure propagating), metadata and filter state. -/
def Test.fromDict (d : TestDict) : Option Test := do
  let files ← dataFilesFromDict d.data_files
  pure { id := d.id, name := d.name, description := d.description,
         data_files := files,
         canonical_headers := d.canonical_headers,
         canonical_metadata := d.canonical_metadata.map
           (fun p => (p.1, ChannelMetadata.fromDict p.2)),
         primary_time_column := d.primary_time_column,
         filter_state := FilterState.fromDict d.filter_state,
         compare_time_offset := d.compare_time_offset, color := d.color }

end LogViewer

deriving instance DecidableEq for Except

namespace LogViewer

/-! ## Shared helper lemmas -/

/-- Folding `min` returns the seed or a list element. -/
theorem foldl_min_mem (as : List ℚ) (a : ℚ) :
    as.foldl min a = a ∨ as.foldl min a ∈ as := by
  induction as generalizing a with
  | nil => exact Or.inl rfl
  | cons b bs ih =>
    rcases ih (min a b) with h | h
    · rcases min_choice a b with hm | hm
      · exact Or.inl (by simpa [hm] using h)
      · exact Or.inr (by simp [List.foldl_cons] at h ⊢; exact Or.inl (by rw [h, hm]))
    · exact Or.inr (by simp [List.foldl_cons]; exact Or.inr h)

/-- Folding `min` is a lower bound for the seed and every element. -/
theorem foldl_min_le (as : List ℚ) (a : ℚ) :
    as.foldl min a ≤ a ∧ ∀ x ∈ as, as.foldl min a ≤ x := by
  induction as generalizing a with
  | nil => exact ⟨le_refl a, by simp⟩
  | cons b bs ih =>
    obtain ⟨h1, h2⟩ := ih (min a b)
    refine ⟨le_trans h1 (min_le_left a b), ?_⟩
    intro x hx
    rcases List.mem_cons.mp hx with rfl | hx
    · exact le_trans h1 (min_le_right a x)
    · exact h2 x hx

/-- Folding `max` returns the seed or a list element. -/
theorem foldl_max_mem (as : List ℚ) (a : ℚ) :
    as.foldl max a = a ∨ as.foldl max a ∈ as := by
  induction as generalizing a with
  | nil => exact Or.inl rfl
  | cons b bs ih =>
    rcases ih (max a b) with h | h
    · rcases max_choice a b with hm | hm
      · exact Or.inl (by simpa [hm] using h)
      · exact Or.inr (by simp [List.foldl_cons] at h ⊢; exact Or.inl (by rw [h, hm]))
    · exact Or.inr (by simp [List.foldl_cons]; exact Or.inr h)

/-- Folding `max` is an upper bound for the seed and every element. -/
theorem foldl_max_ge (as : List ℚ) (a : ℚ) :
    a ≤ as.foldl max a ∧ ∀ x ∈ as, x ≤ as.foldl max a := by
  induction as generalizing a with
  | nil => exact ⟨le_refl a, by simp⟩
  | cons b bs ih =>
    obtain ⟨h1, h2⟩ := ih (max a b)
    refine ⟨le_trans (le_max_left a b) h1, ?_⟩
    intro x hx
    rcases List.mem_cons.mp hx with rfl | hx
    · exact le_trans (le_max_right a x) h1
    · exact h2 x hx

/-- Membership in `filterMap id` over option lists. -/
theorem mem_filterMap_id (ts : List (Option ℚ)) (q : ℚ) :
    q ∈ ts.filterMap id ↔ some q ∈ ts := by
  simp [List.mem_filterMap]

/-! ## C4: the per-DataFile time pipeline, stated from the specification -/

/-- Spec step (1): the mode transform — `RELATIVE` re-zeroes on the first
raw sample, the other modes are the identity at this stage. -/
def specModeTransform (mode : TimeMode) (raw : List (Option ℚ)) :
    List (Option ℚ) :=
  match mode with
  | .RELATIVE =>
    match raw with
    | [] => []
    | t0 :: _ => raw.map (fun x => fsub x t0)
  | _ => raw

/-- Spec step (2): add `time_offset` to every sample. -/
def specAddOffset (off : ℚ) (ts : List (Option ℚ)) : List (Option ℚ) :=
  ts.map (fun x => x.map (fun v => v + off))

/-- Spec step (3): multiply every sample by `time_scale`. -/
def specApplyScale (scale : ℚ) (ts : List (Option ℚ)) : List (Option ℚ) :=
  ts.map (fun x => x.map (fun v => v * scale))

/-- The fixed pipeline the specification describes: mode transform, then
offset, then scale. -/
def specTimePipeline (mode : TimeMode) (off scale : ℚ)
    (raw : List (Option ℚ)) : List (Option ℚ) :=
  specApplyScale scale (specAddOffset off (specModeTransform mode raw))

/-- **C4**: for a `DataFile` with loaded data whose time column is among its
columns, `get_time_data` equals the fixed pipeline — mode transform
(identity except `RELATIVE`, which subtracts the first raw sample), then
`+ time_offset`, then `* time_scale`; with `time_scale = 1`,
`time_offset = 0` and `ABSOLUTE` mode the values are unchanged; an empty
time array passes through unchanged; and `get_time_range` is the (min, max)
of the transformed series, or `(0, 0)` when the data is empty or absent. -/
theorem C4_time_pipeline :
    (∀ (f : DataFile) (d : DF), f.dataframe = some d →
      d.cols.contains f.time_column = true →
      getTimeData f = some (specTimePipeline f.time_mode f.time_offset
        f.time_scale (getColVals d f.time_column))) ∧
    (∀ (f : DataFile) (d : DF), f.dataframe = some d →
      d.cols.contains f.time_column = true →
      f.time_mode = .ABSOLUTE → f.time_offset = 0 → f.time_scale = 1 →
      getTimeData f = some (getColVals d f.time_column)) ∧
    (∀ (f : DataFile) (d : DF), f.dataframe = some d →
      d.cols.contains f.time_column = true →
      getColVals d f.time_column = [] → getTimeData f = some []) ∧
    (∀ f : DataFile, (getTimeData f = none ∨ getTimeData f = some []) →
      fileTimeRange f = (some 0, some 0)) ∧
    (∀ (f : DataFile) (ts : List (Option ℚ)), getTimeData f = some ts →
      ts ≠ [] → (∀ x ∈ ts, x.isSome = true) →
      ∃ mn mx, fileTimeRange f = (some mn, some mx) ∧
        some mn ∈ ts ∧ some mx ∈ ts ∧
        ∀ q : ℚ, some q ∈ ts → mn ≤ q ∧ q ≤ mx) := by
  have main : ∀ (f : DataFile) (d : DF), f.dataframe = some d →
      d.cols.contains f.time_column = true →
      getTimeData f = some (specTimePipeline f.time_mode f.time_offset
        f.time_scale (getColVals d f.time_column)) := by
    intro f d hdf hcol
    simp only [getTimeData, hdf, hcol, if_true]
    congr 1
    cases hm : f.time_mode with
    | RELATIVE =>
      cases htd : getColVals d f.time_column with
      | nil =>
        simp [specTimePipeline, specModeTransform, specAddOffset, specApplyScale]
      | cons t0 rest =>
        simp only [specTimePipeline, specModeTransform, specAddOffset,
          specApplyScale, List.map_map, if_true, reduceIte]
        refine List.map_congr_left ?_
        intro x _
        cases x <;> cases t0 <;> simp [fsub, Function.comp]
    | ABSOLUTE =>
      simp only [specTimePipeline, specModeTransform, specAddOffset,
        specApplyScale, List.map_map, reduceIte]
      refine List.map_congr_left ?_
      intro x _
      cases x <;> simp [Function.comp]
    | CUSTOM_OFFSET =>
      simp only [specTimePipeline, specModeTransform, specAddOffset,
        specApplyScale, List.map_map, reduceIte]
      refine List.map_congr_left ?_
      intro x _
      cases x <;> simp [Function.comp]
  refine ⟨main, ?_, ?_, ?_, ?_⟩
  · intro f d hdf hcol hm ho hs
    rw [main f d hdf hcol]
    congr 1
    simp only [specTimePipeline, specModeTransform, specAddOffset,
      specApplyScale, hm, ho, hs, List.map_map]
    conv_rhs => rw [← List.map_id (getColVals d f.time_column)]
    refine List.map_congr_left ?_
    intro x _
    cases x <;> simp [Function.comp]
  · intro f d hdf hcol hnil
    rw [main f d hdf hcol, hnil]
    cases hm : f.time_mode <;>
      simp [specTimePipeline, specModeTransform, specAddOffset, specApplyScale]
  · intro f h
    rcases h with h | h <;> simp [fileTimeRange, h, List.isEmpty_nil]
  · intro f ts hts hne hsome
    have hany : ts.any (fun x => x.isNone) = false := by
      simp only [List.any_eq_false]
      intro x hx
      cases x with
      | none => simpa using hsome none hx
      | some v => simp
    have hfm : ∀ q : ℚ, q ∈ ts.filterMap id ↔ some q ∈ ts := fun q =>
      mem_filterMap_id ts q
    have hfmne : ts.filterMap id ≠ [] := by
      cases ts with
      | nil => exact absurd rfl hne
      | cons x rest =>
        have hx : x.isSome = true := hsome x (List.mem_cons_self x rest)
        obtain ⟨q0, hq0⟩ := Option.isSome_iff_exists.mp hx
        exact List.ne_nil_of_mem ((hfm q0).mpr (by simp [hq0]))
    cases hfmc : ts.filterMap id with
    | nil => exact absurd hfmc hfmne
    | cons a as =>
      refine ⟨as.foldl min a, as.foldl max a, ?_, ?_, ?_, ?_⟩
      · have hemp : ts.isEmpty = false := by
          cases ts with
          | nil => exact absurd rfl hne
          | cons x rest => rfl
        simp [fileTimeRange, hts, hemp, npMin, npMax, hany, hfmc]
      · have : as.foldl min a ∈ a :: as := by
          rcases foldl_min_mem as a with h | h
          · simp [h]
          · simp [h]
        rw [← hfmc] at this
        exact (hfm _).mp this
      · have : as.foldl max a ∈ a :: as := by
          rcases foldl_max_mem as a with h | h
          · simp [h]
          · simp [h]
        rw [← hfmc] at this
        exact (hfm _).mp this
      · intro q hq
        have hmem : q ∈ a :: as := by rw [← hfmc]; exact (hfm q).mpr hq
        obtain ⟨hmin1, hmin2⟩ := foldl_min_le as a
        obtain ⟨hmax1, hmax2⟩ := foldl_max_ge as a
        rcases List.mem_cons.mp hmem with rfl | hq'
        · exact ⟨hmin1, hmax1⟩
        · exact ⟨hmin2 q hq', hmax2 q hq'⟩

/-- Concrete frame for the C4 witness. -/
def c4df : DF := { cols := ["Time"], rows := [[some 3], [some 5]] }

/-- Concrete file for the C4 witness: `ABSOLUTE`, offset 0, scale 1. -/
def c4file : DataFile :=
  { id := "c4", dataframe := some c4df, time_column := "Time",
    time_mode := .ABSOLUTE, time_offset := 0, time_scale := 1,
    headers := ["Time"], join_tolerance := 1/1000 }

/-- Witness for C4 at a concrete file. -/
theorem C4_time_pipeline_witness :
    getTimeData c4file = some (specTimePipeline c4file.time_mode
      c4file.time_offset c4file.time_scale (getColVals c4df "Time")) ∧
    getTimeData c4file = some (getColVals c4df "Time") ∧
    (∃ mn mx, fileTimeRange c4file = (some mn, some mx) ∧
      some mn ∈ [some (3 : ℚ), some 5] ∧ some mx ∈ [some (3 : ℚ), some 5] ∧
      ∀ q : ℚ, some q ∈ [some (3 : ℚ), some 5] → mn ≤ q ∧ q ≤ mx) :=
  ⟨C4_time_pipeline.1 c4file c4df rfl (by decide),
   C4_time_pipeline.2.1 c4file c4df rfl (by decide) rfl rfl rfl,
   C4_time_pipeline.2.2.2.2 c4file [some 3, some 5] (by decide) (by decide)
     (by decide)⟩

/-! ## C6: `FilterState.apply_to_dataframe` as a declarative row predicate -/

/-- The row predicate C6 describes: the conjunction of the time-window
bounds (when the time column is present) and, for each declared channel
filter whose channel is present in the table, its value bounds; absent
channels impose no constraint. -/
def rowPassesClaim (fs : FilterState) (d : DF) (time_column : String)
    (r : List (Option ℚ)) : Bool :=
  (match colIdx d time_column with
   | some i => boundMask (cellAt r i) fs.time_min fs.time_max
   | none => true) &&
  fs.channel_filters.all (fun p =>
    match colIdx d p.1 with
    | some i => boundMask (cellAt r i) p.2.1 p.2.2
    | none => true)

/-- **C6**: `apply_to_dataframe` returns its input unchanged when the
filter is disabled or the table is empty, and otherwise keeps exactly the
rows satisfying the conjunction of the time-window and per-channel
constraints (channels absent from the table impose none), in their
original order. -/
theorem C6_filter_apply (fs : FilterState) (d : DF) (tc : String) :
    FilterState.apply_to_dataframe fs d tc =
      if fs.enabled = false ∨ d.isEmpty = true then d
      else { cols := d.cols, rows := d.rows.filter (rowPassesClaim fs d tc) } := by
  have hfold : ∀ (l : List (String × (Option ℚ × Option ℚ))) (b : Bool)
      (g : String × (Option ℚ × Option ℚ) → Bool),
      l.foldl (fun acc x => acc && g x) b = (b && l.all g) := by
    intro l
    induction l with
    | nil => intro b g; simp
    | cons a as ih =>
      intro b g
      simp only [List.foldl_cons, List.all_cons, ih, Bool.and_assoc]
  cases he : fs.enabled with
  | false => simp [FilterState.apply_to_dataframe, he]
  | true =>
    cases hie : d.isEmpty with
    | true => simp [FilterState.apply_to_dataframe, he, hie]
    | false =>
      simp only [FilterState.apply_to_dataframe, he, hie, Bool.not_true,
        Bool.false_or, Bool.or_self, if_false, reduceIte]
      rw [if_neg (by simp)]
      refine congrArg (fun rs => DF.mk d.cols rs) ?_
      refine List.filter_congr ?_
      intro r _
      have hstep : (fun (acc : Bool) (p : String × (Option ℚ × Option ℚ)) =>
          match colIdx d p.1 with
          | some i => acc && boundMask (cellAt r i) p.2.1 p.2.2
          | none => acc) =
          (fun acc p => acc && (match colIdx d p.1 with
            | some i => boundMask (cellAt r i) p.2.1 p.2.2
            | none => true)) := by
        funext acc p
        cases colIdx d p.1 <;> simp
      rw [hstep, hfold]
      simp [rowPassesClaim]

/-! ## C3: canonical headers after membership changes -/

/-- The order C3 claims: first-seen order of the headers across the member
files, i.e. the concatenation of all files' header lists with later
duplicates removed. -/
def firstSeenHeaders (files : List DataFile) : List String :=
  (files.flatMap (fun f => f.headers)).foldl
    (fun acc h => if acc.contains h then acc else acc ++ [h]) []

/-- Membership in `pyAppendNew`. -/
theorem pyAppendNew_mem (enum : List String) :
    ∀ (acc : List String) (h : String),
      h ∈ pyAppendNew acc enum ↔ h ∈ acc ∨ h ∈ enum := by
  induction enum with
  | nil => intro acc h; simp [pyAppendNew]
  | cons e es ih =>
    intro acc h
    simp only [pyAppendNew]
    by_cases hc : acc.contains e
    · rw [if_pos hc, ih]
      have he : e ∈ acc := by simpa using hc
      constructor
      · rintro (h1 | h1)
        · exact Or.inl h1
        · exact Or.inr (List.mem_cons_of_mem e h1)
      · rintro (h1 | h1)
        · exact Or.inl h1
        · rcases List.mem_cons.mp h1 with rfl | h1
          · exact Or.inl he
          · exact Or.inr h1
    · rw [if_neg hc, ih]
      simp only [List.mem_append, List.mem_singleton, List.mem_cons]
      tauto

/-- `pyAppendNew` preserves freedom from duplicates. -/
theorem pyAppendNew_nodup (enum : List String) :
    ∀ acc : List String, acc.Nodup → (pyAppendNew acc enum).Nodup := by
  induction enum with
  | nil => intro acc h; exact h
  | cons e es ih =>
    intro acc hacc
    simp only [pyAppendNew]
    by_cases hc : acc.contains e
    · rw [if_pos hc]; exact ih acc hacc
    · rw [if_neg hc]
      refine ih (acc ++ [e]) ?_
      have he : e ∉ acc := by simpa using hc
      simp [List.nodup_append, hacc, he]

/-- `pyAppendNew` only appends to its accumulator. -/
theorem pyAppendNew_eq_append (enum : List String) :
    ∀ acc : List String, ∃ rest, pyAppendNew acc enum = acc ++ rest := by
  induction enum with
  | nil => intro acc; exact ⟨[], by simp [pyAppendNew]⟩
  | cons e es ih =>
    intro acc
    simp only [pyAppendNew]
    by_cases hc : acc.contains e
    · rw [if_pos hc]; exact ih acc
    · rw [if_neg hc]
      obtain ⟨rest, hr⟩ := ih (acc ++ [e])
      exact ⟨e :: rest, by simp [hr]⟩

/-- What `_update_canonical_headers` guarantees for any valid set iteration
order: the new canonical headers are duplicate-free, are exactly the union
of the member files' headers, and start with the retained old canonical
headers in their old relative order. -/
theorem updateCanonical_spec (enum : List String) (t : Test)
    (hvalid : validEnum enum t.data_files) (hnd : t.canonical_headers.Nodup) :
    (updateCanonicalHeaders enum t).canonical_headers.Nodup ∧
    (∀ h, h ∈ (updateCanonicalHeaders enum t).canonical_headers ↔
      h ∈ t.data_files.flatMap (fun g => g.headers)) ∧
    ∃ rest, (updateCanonicalHeaders enum t).canonical_headers =
      t.canonical_headers.filter (fun h => enum.contains h) ++ rest := by
  obtain ⟨hndE, hsub1, hsub2⟩ := hvalid
  simp only [updateCanonicalHeaders]
  refine ⟨?_, ?_, ?_⟩
  · exact pyAppendNew_nodup enum _ (hnd.filter _)
  · intro h
    rw [pyAppendNew_mem]
    constructor
    · rintro (h1 | h1)
      · have : h ∈ enum := by
          have := List.mem_filter.mp h1
          simpa using this.2
        exact hsub1 h this
      · exact hsub1 h h1
    · intro h1
      exact Or.inr (hsub2 h h1)
  · exact pyAppendNew_eq_append enum _

/-- Concrete file for the C3 counterexample: headers `["a", "b"]`. -/
def c3file : DataFile := { id := "c3f", headers := ["a", "b"] }

/-- Fresh test for the C3 counterexample. -/
def c3test0 : Test := { id := "c3t" }

/-- Counterexample to C3's order clause: `["b", "a"]` is a legitimate
iteration order of the header set `{"a", "b"}` (CPython set order is
hash-dependent), and under it `add_data_file` produces canonical headers
`["b", "a"]`, not the first-seen order `["a", "b"]`. -/
theorem C3_canonical_counterexample :
    validEnum ["b", "a"] (c3test0.data_files ++ [c3file]) ∧
    (addDataFile ["b", "a"] c3test0 c3file).canonical_headers = ["b", "a"] ∧
    firstSeenHeaders (addDataFile ["b", "a"] c3test0 c3file).data_files =
      ["a", "b"] ∧
    (addDataFile ["b", "a"] c3test0 c3file).canonical_headers ≠
      firstSeenHeaders (addDataFile ["b", "a"] c3test0 c3file).data_files := by
  refine ⟨?_, by decide, by decide, by decide⟩
  refine ⟨by decide, ?_, ?_⟩ <;> decide

/-- **C3 (amended)**: after each `add_data_file` / `remove_data_file` the
canonical headers are exactly the union, as a set and without duplicates,
of the current member files' headers; headers retained from the previous
canonical list keep their relative order and come first, but newly seen
headers are appended in the (unspecified) set-iteration order, not
necessarily in first-seen order. -/
theorem C3_canonical_amended :
    (∀ (t : Test) (f : DataFile) (enum : List String),
      validEnum enum (t.data_files ++ [f]) →
      t.canonical_headers.Nodup →
      (addDataFile enum t f).canonical_headers.Nodup ∧
      (∀ h, h ∈ (addDataFile enum t f).canonical_headers ↔
        h ∈ (t.data_files ++ [f]).flatMap (fun g => g.headers)) ∧
      ∃ rest, (addDataFile enum t f).canonical_headers =
        t.canonical_headers.filter (fun h => enum.contains h) ++ rest) ∧
    (∀ (t : Test) (fid : String) (fs' : List DataFile) (enum : List String),
      removeById fid t.data_files = some fs' →
      validEnum enum fs' →
      t.canonical_headers.Nodup →
      (removeDataFile enum t fid).1.canonical_headers.Nodup ∧
      (∀ h, h ∈ (removeDataFile enum t fid).1.canonical_headers ↔
        h ∈ fs'.flatMap (fun g => g.headers)) ∧
      ∃ rest, (removeDataFile enum t fid).1.canonical_headers =
        t.canonical_headers.filter (fun h => enum.contains h) ++ rest) := by
  constructor
  · intro t f enum hvalid hnd
    exact updateCanonical_spec enum { t with data_files := t.data_files ++ [f] }
      hvalid hnd
  · intro t fid fs' enum hrem hvalid hnd
    have : removeDataFile enum t fid =
        (updateCanonicalHeaders enum { t with data_files := fs' }, true) := by
      simp [removeDataFile, hrem]
    rw [this]
    exact updateCanonical_spec enum { t with data_files := fs' } hvalid hnd

/-- Witness for the amended C3 at the concrete add operation. -/
theorem C3_canonical_amended_witness :
    (addDataFile ["b", "a"] c3test0 c3file).canonical_headers.Nodup ∧
    (∀ h, h ∈ (addDataFile ["b", "a"] c3test0 c3file).canonical_headers ↔
      h ∈ (c3test0.data_files ++ [c3file]).flatMap (fun g => g.headers)) ∧
    ∃ rest, (addDataFile ["b", "a"] c3test0 c3file).canonical_headers =
      c3test0.canonical_headers.filter (fun h => (["b", "a"] : List String).contains h) ++ rest :=
  C3_canonical_amended.1 c3test0 c3file ["b", "a"]
    (by refine ⟨by decide, ?_, ?_⟩ <;> decide) (by decide)

/-! ## C9: `get_filtered_channels` -/

/-- The channel predicate `get_filtered_channels` actually implements: a
channel passes the text filter when the search text is a substring of the
raw header or, when a canonical metadata entry exists, of its display name
— a channel with **no** metadata entry passes the text filter even when the
raw header does not match; the category and unit allow-lists likewise only
constrain channels that have a metadata entry. -/
def channelPassesAmended (test : Test) (ch : String) : Bool :=
  (test.filter_state.text_search = "" ||
    strIn (pyLower test.filter_state.text_search) (pyLower ch) ||
    (match dictGet test.canonical_metadata ch with
     | some meta => strIn (pyLower test.filter_state.text_search)
         (pyLower meta.display_name)
     | none => true)) &&
  (test.filter_state.category_filter.isEmpty ||
    (match dictGet test.canonical_metadata ch with
     | some meta => test.filter_state.category_filter.contains meta.category
     | none => true)) &&
  (test.filter_state.unit_filter.isEmpty ||
    (match dictGet test.canonical_metadata ch with
     | some meta => test.filter_state.unit_filter.contains meta.unit
     | none => true))

/-- Registered test for the C9 counterexample: text search `"volt"`, no
canonical metadata at all. -/
def c9test : Test := { id := "t9", filter_state := { text_search := "volt" } }

/-- Counterexample to C9: with a non-empty text search, the channel
`"Temp"` has no metadata entry and `"volt"` is not a substring of its raw
header (so by the claim it must not pass), yet `get_filtered_channels`
keeps it. -/
theorem C9_filtered_channels_counterexample :
    registryGet [("t9", c9test)] "t9" = some c9test ∧
    c9test.filter_state.text_search = "volt" ∧
    dictGet c9test.canonical_metadata "Temp" = none ∧
    strIn (pyLower "volt") (pyLower "Temp") = false ∧
    getFilteredChannels [("t9", c9test)] "t9" ["Temp"] = ["Temp"] := by
  refine ⟨by decide, by decide, by decide, by decide, by decide⟩

/-- **C9 (amended)**: for a registered test, `get_filtered_channels` keeps
exactly the channels passing `channelPassesAmended`: the text search must
match the raw header or — only when the channel has a canonical metadata
entry — its display name, and the category/unit allow-lists only constrain
channels that have a metadata entry; channels with no metadata entry pass
all three metadata-dependent checks. -/
theorem C9_filtered_channels_amended (tests : List (String × Test))
    (tid : String) (chans : List String) (test : Test)
    (hreg : registryGet tests tid = some test) :
    getFilteredChannels tests tid chans =
      chans.filter (channelPassesAmended test) := by
  simp only [getFilteredChannels, hreg]
  induction chans with
  | nil => simp [filteredChannelsLoop]
  | cons ch rest ih =>
    simp only [filteredChannelsLoop, List.filter_cons]
    rw [ih]
    have hA : ((test.filter_state.text_search ≠ "" &&
        !strIn (pyLower test.filter_state.text_search) (pyLower ch) &&
        (match dictGet test.canonical_metadata ch with
         | some meta => !strIn (pyLower test.filter_state.text_search)
             (pyLower meta.display_name)
         | none => false)) ||
      (!test.filter_state.category_filter.isEmpty &&
        (match dictGet test.canonical_metadata ch with
         | some meta => !test.filter_state.category_filter.contains meta.category
         | none => false)) ||
      (!test.filter_state.unit_filter.isEmpty &&
        (match dictGet test.canonical_metadata ch with
         | some meta => !test.filter_state.unit_filter.contains meta.unit
         | none => false))) = !channelPassesAmended test ch := by
      simp only [channelPassesAmended]
      cases hm : dictGet test.canonical_metadata ch <;>
        simp [Bool.not_or, Bool.not_and, decide_not, Bool.and_assoc, Bool.or_assoc]
    rw [hA]
    cases hp : channelPassesAmended test ch <;> simp [hp]

/-- Witness for the amended C9 at a concrete registry. -/
theorem C9_filtered_channels_amended_witness :
    getFilteredChannels [("t9", c9test)] "t9" ["Temp", "Voltage"] =
      List.filter (channelPassesAmended c9test) ["Temp", "Voltage"] :=
  C9_filtered_channels_amended [("t9", c9test)] "t9" ["Temp", "Voltage"]
    c9test (by decide)

/-! ## C8: serialization round trips -/

/-- Strip the loaded tabular data from a file, as a save/load round trip
does (the data is reloaded from `filepath` by the file reader, not stored
in the JSON). -/
def stripData (f : DataFile) : DataFile := { f with dataframe := none }

/-- Enum name round trip for `TimeMode`. -/
theorem TimeMode.ofPyName_pyName_tm (m : TimeMode) :
    TimeMode.ofPyName m.pyName = some m := by cases m <;> rfl

/-- Enum name round trip for `JoinStrategy`. -/
theorem JoinStrategy.ofPyName_pyName_js (s : JoinStrategy) :
    JoinStrategy.ofPyName s.pyName = some s := by cases s <;> rfl

/-- Serialized strategy names are truthy (non-empty) strings. -/
theorem JoinStrategy.pyName_ne_empty (s : JoinStrategy) : s.pyName ≠ "" := by
  cases s <;> decide

/-- `ChannelMetadata` round trips exactly. -/
theorem channelMetadata_roundtrip (m : ChannelMetadata) :
    ChannelMetadata.fromDict (ChannelMetadata.toDict m) = m := rfl

/-- Composing the metadata dict round trip over an association list is the
identity. -/
theorem metaMap_roundtrip (cm : List (String × ChannelMetadata)) :
    (cm.map (fun p => (p.1, p.2.toDict))).map
      (fun p => (p.1, ChannelMetadata.fromDict p.2)) = cm := by
  rw [List.map_map]
  have h : ((fun p : String × ChannelMetadataDict =>
      (p.1, ChannelMetadata.fromDict p.2)) ∘
      (fun p : String × ChannelMetadata => (p.1, p.2.toDict))) =
      fun p => p := by
    funext p
    simp [Function.comp, channelMetadata_roundtrip]
  rw [h, List.map_id']

/-- `DataFile` round trips up to the dropped dataframe; the hypothesis is
the `__post_init__` invariant every constructed `DataFile` satisfies (an
empty `filename` only coexists with a path whose final component is also
empty, since `__post_init__` would otherwise have filled the filename). -/
theorem dataFile_roundtrip (f : DataFile)
    (hpi : f.filename = "" → pathName f.filepath = "") :
    DataFile.fromDict (DataFile.toDict f) = some (stripData f) := by
  obtain ⟨fid, fp, fn, dl, enc, hd, cm, df, tc, tm, toff, tsc, js, jk, jt⟩ := f
  have hpi' : fn = "" → pathName fp = "" := hpi
  cases js with
  | none =>
    simp only [DataFile.toDict, DataFile.fromDict, TimeMode.ofPyName_pyName_tm,
      Option.map_none', Option.bind_eq_bind, Option.some_bind,
      metaMap_roundtrip]
    by_cases hfn : fn = ""
    · simp [dataFilePostInit, hfn, hpi' hfn, stripData]
    · simp [dataFilePostInit, hfn, stripData]
  | some s =>
    simp only [DataFile.toDict, DataFile.fromDict, TimeMode.ofPyName_pyName_tm,
      Option.map_some', Option.bind_eq_bind, Option.some_bind,
      metaMap_roundtrip, JoinStrategy.ofPyName_pyName_js,
      JoinStrategy.pyName_ne_empty s, if_neg, reduceIte]
    by_cases hfn : fn = ""
    · simp [dataFilePostInit, hfn, hpi' hfn, stripData,
        JoinStrategy.pyName_ne_empty s]
    · simp [dataFilePostInit, hfn, stripData, JoinStrategy.pyName_ne_empty s]

/-- The per-file round trip lifted over the serialized file list. -/
theorem dataFilesFromDict_roundtrip (files : List DataFile)
    (hpi : ∀ f ∈ files, f.filename = "" → pathName f.filepath = "") :
    dataFilesFromDict (files.map DataFile.toDict) =
      some (files.map stripData) := by
  induction files with
  | nil => rfl
  | cons f fs ih =>
    have h1 := dataFile_roundtrip f (hpi f (List.mem_cons_self f fs))
    have h2 := ih (fun g hg => hpi g (List.mem_cons_of_mem f hg))
    simp [dataFilesFromDict, h1, h2]

/-- **C8**: deserializing the serialized form of a `FilterState`,
`DataFile` or `Test` reproduces a semantically identical value — every
field is restored (id, names, headers, channel metadata, time settings,
join settings, canonical headers and metadata, filter fields, comparison
offset, color) — with only the loaded dataframe dropped.  The `DataFile`
hypotheses are the constructor (`__post_init__`) invariant. -/
theorem C8_serialization_roundtrip :
    (∀ fs : FilterState, FilterState.fromDict (FilterState.toDict fs) = fs) ∧
    (∀ f : DataFile, (f.filename = "" → pathName f.filepath = "") →
      DataFile.fromDict (DataFile.toDict f) = some (stripData f)) ∧
    (∀ t : Test,
      (∀ f ∈ t.data_files, f.filename = "" → pathName f.filepath = "") →
      Test.fromDict (Test.toDict t) =
        some { t with data_files := t.data_files.map stripData }) := by
  refine ⟨fun fs => rfl, dataFile_roundtrip, ?_⟩
  intro t hpi
  simp only [Test.fromDict, Test.toDict,
    dataFilesFromDict_roundtrip t.data_files hpi,
    Option.bind_eq_bind, Option.some_bind, metaMap_roundtrip]
  rfl

/-- Metadata entry shared by the C8 witness values. -/
def c8meta : ChannelMetadata :=
  { original_name := "Temp", display_name := "Temp", unit := "degC",
    category := "Temperature" }

/-- Concrete file for the C8 witness (non-empty filename, loaded data). -/
def c8file : DataFile :=
  { id := "c8f", filepath := "data/run1.csv", filename := "run1.csv",
    headers := ["Time", "Temp"],
    channel_metadata := [("Temp", c8meta)],
    dataframe := some { cols := ["Time", "Temp"], rows := [[some 0, some 20]] },
    time_column := "Time", time_mode := .ABSOLUTE, time_offset := 2,
    time_scale := 3, join_strategy := some .TIME_NEAREST,
    join_key := some "Time", join_tolerance := 1/1000 }

/-- Concrete test for the C8 witness. -/
def c8test : Test :=
  { id := "c8t", name := "Run", description := "demo",
    data_files := [c8file], canonical_headers := ["Time", "Temp"],
    canonical_metadata := [("Temp", c8meta)],
    primary_time_column := "Time",
    filter_state :=
      { time_min := some 1, channel_filters := [("Temp", (some 10, none))],
        text_search := "te" },
    compare_time_offset := 5, color := "#112233" }

/-- Witness for C8 at concrete values. -/
theorem C8_serialization_roundtrip_witness :
    FilterState.fromDict (FilterState.toDict c8test.filter_state) =
      c8test.filter_state ∧
    DataFile.fromDict (DataFile.toDict c8file) = some (stripData c8file) ∧
    Test.fromDict (Test.toDict c8test) =
      some { c8test with data_files := c8test.data_files.map stripData } :=
  ⟨C8_serialization_roundtrip.1 c8test.filter_state,
   C8_serialization_roundtrip.2.1 c8file (by intro h; exact absurd h (by decide)),
   C8_serialization_roundtrip.2.2 c8test (by
     intro f hf h
     simp only [c8test, List.mem_singleton] at hf
     rw [hf] at h
     exact absurd h (by decide))⟩

/-! ## C5: `compute_header_diff` -/

/-- `bestStep` written with a propositional condition. -/
theorem bestStep_eq (score : String → String → ℕ) (th : ℕ) (e : String)
    (acc : Option String × ℕ) (m : String) :
    bestStep score th e acc m =
      if acc.2 < score (pyLower e) (pyLower m) ∧
          th ≤ score (pyLower e) (pyLower m)
      then (some m, score (pyLower e) (pyLower m)) else acc := by
  by_cases h1 : acc.2 < score (pyLower e) (pyLower m) <;>
    by_cases h2 : th ≤ score (pyLower e) (pyLower m) <;>
      simp [bestStep, h1, h2]

/-- The running best score never decreases along the inner loop, and every
missing header whose score clears the threshold is dominated by the final
best score. -/
theorem bestFold_bounds (score : String → String → ℕ) (th : ℕ) (e : String)
    (ms : List String) :
    ∀ acc : Option String × ℕ,
      acc.2 ≤ (ms.foldl (bestStep score th e) acc).2 ∧
      ∀ m ∈ ms, th ≤ score (pyLower e) (pyLower m) →
        score (pyLower e) (pyLower m) ≤
          (ms.foldl (bestStep score th e) acc).2 := by
  induction ms with
  | nil => intro acc; exact ⟨le_refl _, by simp⟩
  | cons m ms ih =>
    intro acc
    simp only [List.foldl_cons]
    obtain ⟨ih1, ih2⟩ := ih (bestStep score th e acc m)
    have hmono : acc.2 ≤ (bestStep score th e acc m).2 := by
      rw [bestStep_eq]
      split_ifs with hc
      · exact le_of_lt hc.1
      · exact le_refl _
    refine ⟨le_trans hmono ih1, ?_⟩
    intro m' hm' hth
    rcases List.mem_cons.mp hm' with rfl | hm'
    · by_cases hgt : acc.2 < score (pyLower e) (pyLower m')
      · have : (bestStep score th e acc m').2 =
            score (pyLower e) (pyLower m') := by
          rw [bestStep_eq, if_pos ⟨hgt, hth⟩]
        exact this ▸ ih1
      · exact le_trans (le_trans (Nat.le_of_not_lt hgt) hmono) ih1
    · exact ih2 m' hm' hth

/-- Where a final best match can come from: a list member achieving the
final best score above the threshold, or the untouched accumulator. -/
theorem bestFold_provenance (score : String → String → ℕ) (th : ℕ)
    (e : String) (ms : List String) :
    ∀ (acc : Option String × ℕ) (m0 : String),
      (ms.foldl (bestStep score th e) acc).1 = some m0 →
      (m0 ∈ ms ∧ (ms.foldl (bestStep score th e) acc).2 =
          score (pyLower e) (pyLower m0) ∧
        th ≤ score (pyLower e) (pyLower m0)) ∨
      ms.foldl (bestStep score th e) acc = acc := by
  induction ms with
  | nil => intro acc m0 _; exact Or.inr rfl
  | cons m ms ih =>
    intro acc m0 h
    simp only [List.foldl_cons] at h ⊢
    rcases ih (bestStep score th e acc m) m0 h with hin | heq
    · exact Or.inl ⟨List.mem_cons_of_mem m hin.1, hin.2⟩
    · rw [heq] at h ⊢
      rw [bestStep_eq] at h ⊢
      split_ifs at h ⊢ with hc
      · simp only at h
        cases h
        exact Or.inl ⟨List.mem_cons_self m ms, rfl, hc.2⟩
      · exact Or.inr rfl

/-- A best match, once found, is never discarded. -/
theorem bestFold_some_preserved (score : String → String → ℕ) (th : ℕ)
    (e : String) (ms : List String) :
    ∀ acc : Option String × ℕ, acc.1.isSome = true →
      (ms.foldl (bestStep score th e) acc).1.isSome = true := by
  induction ms with
  | nil => intro acc h; exact h
  | cons m ms ih =>
    intro acc h
    simp only [List.foldl_cons]
    refine ih (bestStep score th e acc m) ?_
    rw [bestStep_eq]
    split_ifs with hc
    · rfl
    · exact h

/-- If some missing header clears both the threshold and the current best
score, the loop ends with a best match. -/
theorem bestFold_exists (score : String → String → ℕ) (th : ℕ) (e : String)
    (ms : List String) :
    ∀ acc : Option String × ℕ,
      (∃ m ∈ ms, th ≤ score (pyLower e) (pyLower m) ∧
        acc.2 < score (pyLower e) (pyLower m)) →
      (ms.foldl (bestStep score th e) acc).1.isSome = true := by
  induction ms with
  | nil => intro acc h; simp at h
  | cons m ms ih =>
    rintro acc ⟨m', hm', hth, hgt⟩
    simp only [List.foldl_cons]
    rcases List.mem_cons.mp hm' with rfl | hm'
    · refine bestFold_some_preserved score th e ms _ ?_
      rw [bestStep_eq, if_pos ⟨hgt, hth⟩]
      rfl
    · by_cases hs : (bestStep score th e acc m).1.isSome = true
      · exact bestFold_some_preserved score th e ms _ hs
      · have hkeep : bestStep score th e acc m = acc := by
          rw [bestStep_eq]
          split_ifs with hc
          · exfalso
            apply hs
            rw [bestStep_eq, if_pos hc]
            rfl
          · rfl
        rw [hkeep]
        exact ih acc ⟨m', hm', hth, hgt⟩

/-- Membership in the fuzzy-suggestion fold: a pair is collected exactly
when its extra header occurs in the iterated list and the inner loop ends
with that (truthy) best match. -/
theorem fuzzyFold_mem (score : String → String → ℕ) (th : ℕ)
    (missing : List String) (xs : List String) :
    ∀ (acc : List (String × String)) (pe pm : String),
      ((pe, pm) ∈ xs.foldl (fun fm extra_h =>
        match bestFuzzy score th extra_h missing with
        | (some best_match, _) =>
          if best_match ≠ "" then fm ++ [(extra_h, best_match)] else fm
        | (none, _) => fm) acc) ↔
      ((pe, pm) ∈ acc ∨ (pe ∈ xs ∧
        (bestFuzzy score th pe missing).1 = some pm ∧ pm ≠ "")) := by
  induction xs with
  | nil => intro acc pe pm; simp
  | cons e es ih =>
    intro acc pe pm
    simp only [List.foldl_cons]
    rcases hbe : bestFuzzy score th e missing with ⟨ob, s⟩
    cases ob with
    | none =>
      dsimp only
      rw [ih]
      constructor
      · rintro (h | ⟨h1, h2, h3⟩)
        · exact Or.inl h
        · exact Or.inr ⟨List.mem_cons_of_mem e h1, h2, h3⟩
      · rintro (h | ⟨h1, h2, h3⟩)
        · exact Or.inl h
        · rcases List.mem_cons.mp h1 with rfl | h1
          · rw [hbe] at h2
            simp at h2
          · exact Or.inr ⟨h1, h2, h3⟩
    | some b =>
      dsimp only
      by_cases hb : b = ""
      · rw [if_neg (by simp [hb])]
        rw [ih]
        constructor
        · rintro (h | ⟨h1, h2, h3⟩)
          · exact Or.inl h
          · exact Or.inr ⟨List.mem_cons_of_mem e h1, h2, h3⟩
        · rintro (h | ⟨h1, h2, h3⟩)
          · exact Or.inl h
          · rcases List.mem_cons.mp h1 with rfl | h1
            · rw [hbe] at h2
              simp only at h2
              obtain rfl : b = pm := by injection h2
              exact absurd hb h3
            · exact Or.inr ⟨h1, h2, h3⟩
      · rw [if_pos hb]
        rw [ih]
        constructor
        · rintro (h | ⟨h1, h2, h3⟩)
          · rcases List.mem_append.mp h with h | h
            · exact Or.inl h
            · simp only [List.mem_singleton, Prod.mk.injEq] at h
              obtain ⟨rfl, rfl⟩ := h
              refine Or.inr ⟨List.mem_cons_self _ _, ?_, hb⟩
              rw [hbe]
          · exact Or.inr ⟨List.mem_cons_of_mem e h1, h2, h3⟩
        · rintro (h | ⟨h1, h2, h3⟩)
          · exact Or.inl (List.mem_append.mpr (Or.inl h))
          · rcases List.mem_cons.mp h1 with rfl | h1
            · rw [hbe] at h2
              simp only at h2
              obtain rfl : b = pm := by injection h2
              exact Or.inl (List.mem_append.mpr (Or.inr (by simp)))
            · exact Or.inr ⟨h1, h2, h3⟩

/-- **C5 (amended)**: with `eT`, `eF` the (duplicate-free) set iteration
orders of the two header sets, `compute_header_diff` returns `matched` /
`missing` / `extra` as the lexicographically sorted, duplicate-free
exact-set results; `has_differences` is true iff `missing` or `extra` is
non-empty; each extra header maps to at most one fuzzy suggestion, which is
a highest-scoring missing header whose score clears the (inclusive)
threshold; and — the amended acceptance clause — an extra header is
guaranteed a suggestion whenever some missing header scores `≥ threshold`,
provided the threshold is at least 1 (a score of 0 can never beat the
running best, which starts at 0) and the missing headers are non-empty
strings (an empty-string best match is discarded by the source's
truthiness test). -/
theorem C5_header_diff_amended (eT eF : List String)
    (score : String → String → ℕ) (th : ℕ)
    (hT : eT.Nodup) (hF : eF.Nodup) :
    ((computeHeaderDiff eT eF score th).matched.Sorted (· ≤ ·) ∧
      (computeHeaderDiff eT eF score th).missing.Sorted (· ≤ ·) ∧
      (computeHeaderDiff eT eF score th).extra.Sorted (· ≤ ·)) ∧
    ((computeHeaderDiff eT eF score th).matched.Nodup ∧
      (computeHeaderDiff eT eF score th).missing.Nodup ∧
      (computeHeaderDiff eT eF score th).extra.Nodup) ∧
    (∀ x : String,
      (x ∈ (computeHeaderDiff eT eF score th).matched ↔ x ∈ eT ∧ x ∈ eF) ∧
      (x ∈ (computeHeaderDiff eT eF score th).missing ↔ x ∈ eT ∧ x ∉ eF) ∧
      (x ∈ (computeHeaderDiff eT eF score th).extra ↔ x ∈ eF ∧ x ∉ eT)) ∧
    ((computeHeaderDiff eT eF score th).has_differences = true ↔
      ∃ x, (x ∈ eT ∧ x ∉ eF) ∨ (x ∈ eF ∧ x ∉ eT)) ∧
    (∀ e m, (e, m) ∈ (computeHeaderDiff eT eF score th).fuzzy_matches →
      (e ∈ eF ∧ e ∉ eT) ∧ (m ∈ eT ∧ m ∉ eF) ∧
      th ≤ score (pyLower e) (pyLower m) ∧
      ∀ m' ∈ eT, m' ∉ eF →
        score (pyLower e) (pyLower m') ≤ score (pyLower e) (pyLower m)) ∧
    (∀ e m1 m2, (e, m1) ∈ (computeHeaderDiff eT eF score th).fuzzy_matches →
      (e, m2) ∈ (computeHeaderDiff eT eF score th).fuzzy_matches →
      m1 = m2) ∧
    (1 ≤ th → (∀ m' ∈ eT, m' ∉ eF → m' ≠ "") →
      ∀ e ∈ eF, e ∉ eT →
      (∃ m' ∈ eT, m' ∉ eF ∧ th ≤ score (pyLower e) (pyLower m')) →
      ∃ m, (e, m) ∈ (computeHeaderDiff eT eF score th).fuzzy_matches) := by
  have hmat : (computeHeaderDiff eT eF score th).matched =
      sortStr (eT.filter (fun h => eF.contains h)) := rfl
  have hmis : (computeHeaderDiff eT eF score th).missing =
      sortStr (eT.filter (fun h => !eF.contains h)) := rfl
  have hext : (computeHeaderDiff eT eF score th).extra =
      sortStr (eF.filter (fun h => !eT.contains h)) := rfl
  have hfuz : (computeHeaderDiff eT eF score th).fuzzy_matches =
      (eF.filter (fun h => !eT.contains h)).foldl (fun fm extra_h =>
        match bestFuzzy score th extra_h
            (eT.filter (fun h => !eF.contains h)) with
        | (some best_match, _) =>
          if best_match ≠ "" then fm ++ [(extra_h, best_match)] else fm
        | (none, _) => fm) [] := rfl
  have hmemM : ∀ x, x ∈ sortStr (eT.filter (fun h => eF.contains h)) ↔
      x ∈ eT ∧ x ∈ eF := by
    intro x
    rw [sortStr, (List.perm_insertionSort _ _).mem_iff]
    simp [List.mem_filter]
  have hmemMis : ∀ x, x ∈ sortStr (eT.filter (fun h => !eF.contains h)) ↔
      x ∈ eT ∧ x ∉ eF := by
    intro x
    rw [sortStr, (List.perm_insertionSort _ _).mem_iff]
    simp [List.mem_filter]
  have hmemE : ∀ x, x ∈ sortStr (eF.filter (fun h => !eT.contains h)) ↔
      x ∈ eF ∧ x ∉ eT := by
    intro x
    rw [sortStr, (List.perm_insertionSort _ _).mem_iff]
    simp [List.mem_filter]
  have hmemMsL : ∀ x, x ∈ eT.filter (fun h => !eF.contains h) ↔
      x ∈ eT ∧ x ∉ eF := by
    intro x
    simp [List.mem_filter]
  have hmemExL : ∀ x, x ∈ eF.filter (fun h => !eT.contains h) ↔
      x ∈ eF ∧ x ∉ eT := by
    intro x
    simp [List.mem_filter]
  refine ⟨⟨?_, ?_, ?_⟩, ⟨?_, ?_, ?_⟩, ?_, ?_, ?_, ?_, ?_⟩
  · rw [hmat, sortStr]
    exact List.sorted_insertionSort _ _
  · rw [hmis, sortStr]
    exact List.sorted_insertionSort _ _
  · rw [hext, sortStr]
    exact List.sorted_insertionSort _ _
  · rw [hmat, sortStr]
    exact (List.perm_insertionSort _ _).nodup_iff.mpr (hT.filter _)
  · rw [hmis, sortStr]
    exact (List.perm_insertionSort _ _).nodup_iff.mpr (hT.filter _)
  · rw [hext, sortStr]
    exact (List.perm_insertionSort _ _).nodup_iff.mpr (hF.filter _)
  · intro x
    rw [hmat, hmis, hext]
    exact ⟨hmemM x, hmemMis x, hmemE x⟩
  · have hne : ∀ l : List String, ((!l.isEmpty) = true ↔ ∃ x, x ∈ l) := by
      intro l; cases l <;> simp
    simp only [HeaderDiff.has_differences, hmis, hext, Bool.or_eq_true, hne,
      hmemMis, hmemE]
    exact exists_or.symm
  · intro e m hm
    rw [hfuz] at hm
    rcases (fuzzyFold_mem score th _ _ [] e m).mp hm with habs | ⟨he, hb, _⟩
    · simp at habs
    · rw [bestFuzzy] at hb
      rcases bestFold_provenance score th e _ (none, 0) m hb with
        ⟨hmm, hsc, hth⟩ | heq
      · refine ⟨(hmemExL e).mp he, (hmemMsL m).mp hmm, hth, ?_⟩
        intro m' hm'T hm'F
        by_cases hth' : th ≤ score (pyLower e) (pyLower m')
        · have := (bestFold_bounds score th e _ (none, 0)).2 m'
            ((hmemMsL m').mpr ⟨hm'T, hm'F⟩) hth'
          rw [hsc] at this
          exact this
        · exact le_trans (le_of_lt (Nat.lt_of_not_le hth')) hth
      · rw [heq] at hb
        simp at hb
  · intro e m1 m2 h1 h2
    rw [hfuz] at h1 h2
    rcases (fuzzyFold_mem score th _ _ [] e m1).mp h1 with habs | ⟨_, hb1, _⟩
    · simp at habs
    rcases (fuzzyFold_mem score th _ _ [] e m2).mp h2 with habs | ⟨_, hb2, _⟩
    · simp at habs
    rw [hb1] at hb2
    injection hb2
  · intro hth1 hnonempty e heF heT ⟨m', hm'T, hm'F, hscth⟩
    have hsome := bestFold_exists score th e
      (eT.filter (fun h => !eF.contains h)) (none, 0)
      ⟨m', (hmemMsL m').mpr ⟨hm'T, hm'F⟩, hscth,
        lt_of_lt_of_le (Nat.lt_of_lt_of_le Nat.zero_lt_one hth1) hscth⟩
    rw [← bestFuzzy] at hsome
    obtain ⟨m0, hb0⟩ := Option.isSome_iff_exists.mp hsome
    have hprov := bestFold_provenance score th e _ (none, 0) m0
      (by rw [← bestFuzzy]; exact hb0)
    rcases hprov with ⟨hm0, _, _⟩ | heq
    · obtain ⟨hm0T, hm0F⟩ := (hmemMsL m0).mp hm0
      refine ⟨m0, ?_⟩
      rw [hfuz]
      exact (fuzzyFold_mem score th _ _ [] e m0).mpr
        (Or.inr ⟨(hmemExL e).mpr ⟨heF, heT⟩, hb0, hnonempty m0 hm0T hm0F⟩)
    · rw [bestFuzzy, heq] at hb0
      simp at hb0

/-- Constant-zero scorer for the C5 counterexample: `rapidfuzz`'s
`token_sort_ratio("xyz", "abc")` is `0` (no characters in common), which
this models at the two inputs the counterexample evaluates. -/
def c5zeroScore : String → String → ℕ := fun _ _ => 0

/-- Counterexample to C5's inclusive-threshold clause at threshold `0`: the
missing header `"xyz"` scores exactly the threshold (`0`) against the extra
header `"abc"`, so by the claim it must be accepted as a suggestion, but
the source's `score > best_score` test (with `best_score` initialised to
`0`) rejects it and no suggestion is produced. -/
theorem C5_header_diff_counterexample :
    "xyz" ∈ (computeHeaderDiff ["xyz"] ["abc"] c5zeroScore 0).missing ∧
    "abc" ∈ (computeHeaderDiff ["xyz"] ["abc"] c5zeroScore 0).extra ∧
    c5zeroScore (pyLower "abc") (pyLower "xyz") ≥ 0 ∧
    (computeHeaderDiff ["xyz"] ["abc"] c5zeroScore 0).fuzzy_matches = [] := by
  refine ⟨by decide, by decide, by decide, by decide⟩

/-- Constant scorer for the C5 witness. -/
def c5cScore : String → String → ℕ := fun _ _ => 100

/-- Witness for the amended C5 at concrete inputs. -/
theorem C5_header_diff_amended_witness :
    ((computeHeaderDiff ["Pa"] ["Pb"] c5cScore 80).matched.Sorted (· ≤ ·) ∧
      (computeHeaderDiff ["Pa"] ["Pb"] c5cScore 80).missing.Sorted (· ≤ ·) ∧
      (computeHeaderDiff ["Pa"] ["Pb"] c5cScore 80).extra.Sorted (· ≤ ·)) ∧
    ((computeHeaderDiff ["Pa"] ["Pb"] c5cScore 80).matched.Nodup ∧
      (computeHeaderDiff ["Pa"] ["Pb"] c5cScore 80).missing.Nodup ∧
      (computeHeaderDiff ["Pa"] ["Pb"] c5cScore 80).extra.Nodup) ∧
    (∀ x : String,
      (x ∈ (computeHeaderDiff ["Pa"] ["Pb"] c5cScore 80).matched ↔
        x ∈ ["Pa"] ∧ x ∈ ["Pb"]) ∧
      (x ∈ (computeHeaderDiff ["Pa"] ["Pb"] c5cScore 80).missing ↔
        x ∈ ["Pa"] ∧ x ∉ ["Pb"]) ∧
      (x ∈ (computeHeaderDiff ["Pa"] ["Pb"] c5cScore 80).extra ↔
        x ∈ ["Pb"] ∧ x ∉ ["Pa"])) ∧
    ((computeHeaderDiff ["Pa"] ["Pb"] c5cScore 80).has_differences = true ↔
      ∃ x, (x ∈ ["Pa"] ∧ x ∉ ["Pb"]) ∨ (x ∈ ["Pb"] ∧ x ∉ ["Pa"])) ∧
    (∀ e m,
      (e, m) ∈ (computeHeaderDiff ["Pa"] ["Pb"] c5cScore 80).fuzzy_matches →
      (e ∈ ["Pb"] ∧ e ∉ ["Pa"]) ∧ (m ∈ ["Pa"] ∧ m ∉ ["Pb"]) ∧
      80 ≤ c5cScore (pyLower e) (pyLower m) ∧
      ∀ m' ∈ ["Pa"], m' ∉ ["Pb"] →
        c5cScore (pyLower e) (pyLower m') ≤ c5cScore (pyLower e) (pyLower m)) ∧
    (∀ e m1 m2,
      (e, m1) ∈ (computeHeaderDiff ["Pa"] ["Pb"] c5cScore 80).fuzzy_matches →
      (e, m2) ∈ (computeHeaderDiff ["Pa"] ["Pb"] c5cScore 80).fuzzy_matches →
      m1 = m2) ∧
    (1 ≤ 80 → (∀ m' ∈ ["Pa"], m' ∉ ["Pb"] → m' ≠ "") →
      ∀ e ∈ ["Pb"], e ∉ ["Pa"] →
      (∃ m' ∈ ["Pa"], m' ∉ ["Pb"] ∧
        80 ≤ c5cScore (pyLower e) (pyLower m')) →
      ∃ m, (e, m) ∈ (computeHeaderDiff ["Pa"] ["Pb"] c5cScore 80).fuzzy_matches) :=
  C5_header_diff_amended ["Pa"] ["Pb"] c5cScore 80 (by decide) (by decide)

/-! ## Column-set lemmas for the merge loop -/

/-- `dropDupCols` leaves no column ending in `"_dup"`. -/
theorem dropDupCols_no_dup (d : DF) (c : String)
    (hc : c ∈ (dropDupCols d).cols) : strEndsWith c "_dup" = false := by
  simp only [dropDupCols, List.mem_map, List.mem_filter] at hc
  obtain ⟨i, ⟨_, hkeep⟩, hgd⟩ := hc
  rw [← hgd]
  simpa using hkeep

/-- Sorting by a column does not change the column set. -/
theorem sortValues_cols (d : DF) (c : String) :
    (sortValues d c).cols = d.cols := by
  rw [sortValues]
  cases colIdx d c <;> rfl

/-- Filtering rows does not change the column set. -/
theorem apply_to_dataframe_cols (fs : FilterState) (d : DF) (tc : String) :
    (FilterState.apply_to_dataframe fs d tc).cols = d.cols := by
  rw [FilterState.apply_to_dataframe]
  split_ifs <;> rfl

/-- Inversion of `get_merged_dataframe` on a two-file test whose second
file takes the default join branch: the result's columns are those of
`dropDupCols` applied to the outer merge of the two per-file frames. -/
theorem getMerged_two_default_inv (t : Test) (b : Bool) (f1 f2 : DataFile)
    (d1 d2 : DF) (m : DF)
    (hfiles : t.data_files = [f1, f2])
    (hd1 : f1.dataframe = some d1) (hd2 : f2.dataframe = some d2)
    (hjs : f2.join_strategy = none ∨ f2.join_strategy = some .TIME_EXACT ∨
      f2.join_strategy = some .ALTERNATIVE_KEY)
    (hmerge : getMergedDataframe t b = .ok m) :
    ∃ mm, outerMerge (mkTemp (if t.primary_time_column = ""
        then f1.time_column else t.primary_time_column) f1 d1)
      (mkTemp (if t.primary_time_column = "" then f1.time_column
        else t.primary_time_column) f2 d2) "_plot_time_" "" "_dup" = .ok mm ∧
      m.cols = (dropDupCols mm).cols := by
  simp only [getMergedDataframe, hfiles] at hmerge
  have hstep : mergeFold (if t.primary_time_column = "" then f1.time_column
      else t.primary_time_column) none [f1, f2] =
      (outerMerge (mkTemp (if t.primary_time_column = "" then f1.time_column
        else t.primary_time_column) f1 d1)
        (mkTemp (if t.primary_time_column = "" then f1.time_column
          else t.primary_time_column) f2 d2) "_plot_time_" "" "_dup").bind
        (fun mm => .ok (some (dropDupCols mm))) := by
    rcases hjs with h | h | h <;>
      · simp only [mergeFold, hd1, hd2, h]
        cases outerMerge (mkTemp (if t.primary_time_column = ""
            then f1.time_column else t.primary_time_column) f1 d1)
          (mkTemp (if t.primary_time_column = "" then f1.time_column
            else t.primary_time_column) f2 d2) "_plot_time_" "" "_dup" <;>
          rfl
  rw [hstep] at hmerge
  cases hout : outerMerge (mkTemp (if t.primary_time_column = ""
      then f1.time_column else t.primary_time_column) f1 d1)
    (mkTemp (if t.primary_time_column = "" then f1.time_column
      else t.primary_time_column) f2 d2) "_plot_time_" "" "_dup" with
  | error e =>
    rw [hout] at hmerge
    simp [Except.bind] at hmerge
  | ok mm =>
    rw [hout] at hmerge
    simp only [Except.bind, Except.ok.injEq] at hmerge
    refine ⟨mm, rfl, ?_⟩
    rw [← hmerge]
    split_ifs <;> simp [sortValues_cols, apply_to_dataframe_cols]

/-- **C10**: whenever the second file of a two-file test is folded in via
the default join branch (strategy unset, `TIME_EXACT`, or
`ALTERNATIVE_KEY`), duplicate columns are resolved by suffixing the
incoming side with `"_dup"` and dropping every result column ending in
`"_dup"` — so any genuine input channel whose name ends in `"_dup"` is
silently absent from the merged result. -/
theorem C10_dup_suffix_drop (t : Test) (b : Bool) (f1 f2 : DataFile)
    (d1 d2 : DF) (m : DF) (c : String)
    (hfiles : t.data_files = [f1, f2])
    (hd1 : f1.dataframe = some d1) (hd2 : f2.dataframe = some d2)
    (hjs : f2.join_strategy = none ∨ f2.join_strategy = some .TIME_EXACT ∨
      f2.join_strategy = some .ALTERNATIVE_KEY)
    (hmerge : getMergedDataframe t b = .ok m)
    (hdup : strEndsWith c "_dup" = true)
    (_hin : c ∈ d1.cols ∨ c ∈ d2.cols) :
    c ∉ m.cols := by
  obtain ⟨mm, _, hcols⟩ :=
    getMerged_two_default_inv t b f1 f2 d1 d2 m hfiles hd1 hd2 hjs hmerge
  rw [hcols]
  intro hc
  rw [dropDupCols_no_dup mm c hc] at hdup
  exact Bool.false_ne_true hdup

/-- Frames and files for the C10 witness: the first file carries a genuine
channel named `X_dup`. -/
def c10d1 : DF := { cols := ["Time", "X_dup"], rows := [[some 0, some 7]] }

/-- Second frame for the C10 witness. -/
def c10d2 : DF := { cols := ["Time", "B"], rows := [[some 0, some 5]] }

/-- First file of the C10 witness test. -/
def c10f1 : DataFile :=
  { id := "f1", dataframe := some c10d1, time_column := "Time",
    time_mode := .ABSOLUTE, headers := ["Time", "X_dup"],
    join_tolerance := 1/1000 }

/-- Second file of the C10 witness test (default strategy). -/
def c10f2 : DataFile :=
  { id := "f2", dataframe := some c10d2, time_column := "Time",
    time_mode := .ABSOLUTE, headers := ["Time", "B"],
    join_tolerance := 1/1000 }

/-- The C10 witness test. -/
def c10test : Test :=
  { id := "t10", data_files := [c10f1, c10f2], primary_time_column := "Time" }

/-- Witness for C10: the genuine `X_dup` channel of the first file is
absent from the merged result. -/
theorem C10_dup_suffix_drop_witness :
    "X_dup" ∉ (DF.mk ["Time", "_plot_time_", "B"]
      [[some 0, some 0, some 5]]).cols :=
  C10_dup_suffix_drop c10test false c10f1 c10f2 c10d1 c10d2
    (DF.mk ["Time", "_plot_time_", "B"] [[some 0, some 0, some 5]]) "X_dup"
    rfl rfl rfl (Or.inl rfl) (by decide) (by decide) (Or.inl (by decide))

/-! ## C1: a DataFile with no derivable `_plot_time_` column -/

/-- A column index points at the column's name. -/
theorem colIdx_some_get (d : DF) (c : String) (j : Nat)
    (h : colIdx d c = some j) : d.cols.get? j = some c := by
  rw [colIdx] at h
  obtain ⟨hlt, hp, _⟩ := List.findIdx?_eq_some_iff_getElem.mp h
  rw [List.get?_eq_getElem?, List.getElem?_eq_getElem hlt]
  simpa using hp

/-- Absent columns have no index. -/
theorem colIdx_none_of_not_mem (d : DF) (c : String) (h : c ∉ d.cols) :
    colIdx d c = none := by
  rw [colIdx, List.findIdx?_eq_none_iff]
  intro x hx
  simp only [beq_eq_false_iff_ne, ne_eq]
  rintro rfl
  exact h hx

/-- When the test's time column is absent from a file's frame, `mkTemp`
adds no `_plot_time_` column and returns the frame unchanged. -/
theorem mkTemp_no_time (tc : String) (f : DataFile) (d : DF)
    (h : tc ∉ d.cols) : mkTemp tc f d = d := by
  rw [mkTemp]
  cases getPlotTime f <;> simp [h]

/-- Concrete frames and files for the C1 counterexample: the second file's
time column (`"Time"`) is absent from its own columns, so no `_plot_time_`
can be derived for it. -/
def c1d1 : DF := { cols := ["Time", "A"], rows := [[some 0, some 1], [some 1, some 2]] }

/-- Second frame of the C1 counterexample (columns `T2`, `B`). -/
def c1d2 : DF := { cols := ["T2", "B"], rows := [[some 0, some 3]] }

/-- First file of the C1 counterexample. -/
def c1f1 : DataFile :=
  { id := "f1", dataframe := some c1d1, time_column := "Time",
    time_mode := .ABSOLUTE, headers := ["Time", "A"], join_tolerance := 1/1000 }

/-- Second file of the C1 counterexample (default join strategy). -/
def c1f2 : DataFile :=
  { id := "f2", dataframe := some c1d2, time_column := "Time",
    time_mode := .ABSOLUTE, headers := ["T2", "B"], join_tolerance := 1/1000 }

/-- The C1 counterexample test. -/
def c1test : Test :=
  { id := "t1", data_files := [c1f1, c1f2], primary_time_column := "Time" }

/-- Counterexample to C1: the merge does **not** complete — the default
outer join raises a `KeyError` on the missing `_plot_time_` column of the
offending file, aborting the whole merge instead of contributing
missing-valued columns. -/
theorem C1_merge_locality_counterexample :
    c1f2.time_column ∉ c1d2.cols ∧
    getMergedDataframe c1test true = .error "KeyError: _plot_time_" :=
  ⟨by decide, by decide⟩

/-- **C1 (amended)**: a DataFile whose `_plot_time_` column cannot be
derived (the test's time column is absent from its frame, and it has no raw
`_plot_time_` column) aborts `get_merged_dataframe` with a `KeyError` under
every join strategy except `APPEND_SEGMENT` — the failure is **not** local.
Only an `APPEND_SEGMENT` file degrades gracefully: the merge succeeds, its
rows are appended, and (third conjunct, about the concatenation the branch
performs) each side's rows carry missing values in every column that only
the other side contributes. -/
theorem C1_merge_locality_amended :
    (∀ (t : Test) (b : Bool) (f1 f2 : DataFile) (d1 d2 : DF),
      t.data_files = [f1, f2] →
      f1.dataframe = some d1 → f2.dataframe = some d2 →
      f2.join_strategy ≠ some .APPEND_SEGMENT →
      (if t.primary_time_column = "" then f1.time_column
        else t.primary_time_column) ∉ d2.cols →
      "_plot_time_" ∉ d2.cols →
      ∃ e, getMergedDataframe t b = .error e) ∧
    (∀ (t : Test) (f1 f2 : DataFile) (d1 d2 : DF),
      t.data_files = [f1, f2] →
      f1.dataframe = some d1 → f2.dataframe = some d2 →
      f2.join_strategy = some .APPEND_SEGMENT →
      ∃ m, getMergedDataframe t false = .ok m) ∧
    (∀ (l r : DF) (i j : Nat) (c : String),
      (i < l.rows.length → colIdx (concatDF l r) c = some j → c ∉ l.cols →
        cellAt (((concatDF l r).rows.get? i).getD []) j = none) ∧
      (i < r.rows.length → colIdx (concatDF l r) c = some j → c ∉ r.cols →
        cellAt (((concatDF l r).rows.get? (l.rows.length + i)).getD []) j =
          none)) := by
  refine ⟨?_, ?_, ?_⟩
  · intro t b f1 f2 d1 d2 hfiles hd1 hd2 hnotapp htc hpt
    have htemp2 : mkTemp (if t.primary_time_column = "" then f1.time_column
        else t.primary_time_column) f2 d2 = d2 := mkTemp_no_time _ f2 d2 htc
    have hnone2 : colIdx d2 "_plot_time_" = none :=
      colIdx_none_of_not_mem d2 _ hpt
    suffices h : ∃ e, mergeFold (if t.primary_time_column = ""
        then f1.time_column else t.primary_time_column) none [f1, f2] =
        .error e by
      obtain ⟨e, he⟩ := h
      refine ⟨e, ?_⟩
      simp [getMergedDataframe, hfiles, he]
    cases hjs : f2.join_strategy with
    | none =>
      simp only [mergeFold, hd1, hd2, hjs, htemp2]
      cases h1 : colIdx (mkTemp (if t.primary_time_column = ""
          then f1.time_column else t.primary_time_column) f1 d1)
          "_plot_time_" <;>
        exact ⟨"KeyError: _plot_time_",
          by simp only [outerMerge, h1, hnone2]; rfl⟩
    | some s =>
      cases s with
      | APPEND_SEGMENT => exact absurd hjs hnotapp
      | TIME_NEAREST =>
        simp only [mergeFold, hd1, hd2, hjs, htemp2]
        have hs2 : sortValuesE d2 "_plot_time_" =
            .error "KeyError: _plot_time_" := by
          simp [sortValuesE, hnone2]
        cases hs1 : sortValuesE (mkTemp (if t.primary_time_column = ""
            then f1.time_column else t.primary_time_column) f1 d1)
            "_plot_time_" with
        | error e => exact ⟨e, rfl⟩
        | ok s1 =>
          exact ⟨"KeyError: _plot_time_", by simp only [hs2]; rfl⟩
      | TIME_EXACT =>
        simp only [mergeFold, hd1, hd2, hjs, htemp2]
        cases h1 : colIdx (mkTemp (if t.primary_time_column = ""
            then f1.time_column else t.primary_time_column) f1 d1)
            "_plot_time_" <;>
          exact ⟨"KeyError: _plot_time_",
            by simp only [outerMerge, h1, hnone2]; rfl⟩
      | ALTERNATIVE_KEY =>
        simp only [mergeFold, hd1, hd2, hjs, htemp2]
        cases h1 : colIdx (mkTemp (if t.primary_time_column = ""
            then f1.time_column else t.primary_time_column) f1 d1)
            "_plot_time_" <;>
          exact ⟨"KeyError: _plot_time_",
            by simp only [outerMerge, h1, hnone2]; rfl⟩
  · intro t f1 f2 d1 d2 hfiles hd1 hd2 hjs
    simp only [getMergedDataframe, hfiles, mergeFold, hd1, hd2, hjs,
      Bool.false_and, if_false, reduceIte]
    exact ⟨_, rfl⟩
  · intro l r i j c
    constructor
    · intro hi hj hc
      simp only [concatDF] at hj ⊢
      rw [List.get?_append (by simpa using hi), List.get?_map]
      cases hrow : l.rows.get? i with
      | none =>
        rw [List.get?_eq_getElem?, List.getElem?_eq_getElem hi] at hrow
        cases hrow
      | some row =>
        simp only [Option.map_some', Option.getD_some, cellAt, List.get?_map]
        have hget := colIdx_some_get _ c j hj
        simp only [concatDF] at hget
        rw [hget]
        simp only [Option.map_some', Option.getD_some]
        rw [colIdx_none_of_not_mem l c hc]
    · intro hi hj hc
      simp only [concatDF] at hj ⊢
      rw [List.get?_append_right (by simp), List.length_map,
        Nat.add_sub_cancel_left, List.get?_map]
      cases hrow : r.rows.get? i with
      | none =>
        rw [List.get?_eq_getElem?, List.getElem?_eq_getElem hi] at hrow
        cases hrow
      | some row =>
        simp only [Option.map_some', Option.getD_some, cellAt, List.get?_map]
        have hget := colIdx_some_get _ c j hj
        simp only [concatDF] at hget
        rw [hget]
        simp only [Option.map_some', Option.getD_some]
        rw [colIdx_none_of_not_mem r c hc]

/-- Witness for the amended C1: the counterexample test errors (first
conjunct), and the same test with the offending file switched to
`APPEND_SEGMENT` merges successfully (second conjunct). -/
theorem C1_merge_locality_amended_witness :
    (∃ e, getMergedDataframe c1test true = .error e) ∧
    (∃ m, getMergedDataframe
      { c1test with data_files := [c1f1,
        { c1f2 with join_strategy := some .APPEND_SEGMENT }] } false =
        .ok m) ∧
    cellAt (((concatDF c1d1 c1d2).rows.get? 0).getD []) 2 = none :=
  ⟨C1_merge_locality_amended.1 c1test true c1f1 c1f2 c1d1 c1d2 rfl rfl rfl
     (by decide) (by decide) (by decide),
   C1_merge_locality_amended.2.1 _ c1f1
     { c1f2 with join_strategy := some .APPEND_SEGMENT } c1d1 c1d2 rfl rfl
     rfl rfl,
   (C1_merge_locality_amended.2.2 c1d1 c1d2 0 2 "T2").1 (by decide)
     (by decide) (by decide)⟩

/-! ## C2: how `ALTERNATIVE_KEY` files are actually merged -/

/-- Present columns have an index. -/
theorem colIdx_some_of_mem (d : DF) (c : String) (h : c ∈ d.cols) :
    ∃ j, colIdx d c = some j := by
  cases hf : colIdx d c with
  | some j => exact ⟨j, rfl⟩
  | none =>
    rw [colIdx, List.findIdx?_eq_none_iff] at hf
    have := hf c h
    simp at this

/-- Reading every position of a list back with `getD` reproduces it. -/
theorem map_getD_range (l : List String) (d : String) :
    (List.range l.length).map (fun i => l.getD i d) = l := by
  induction l with
  | nil => rfl
  | cons a as ih =>
    rw [List.length_cons, List.range_succ_eq_map]
    simp only [List.map_cons, List.getD_cons_zero, List.map_map]
    have hmc : ∀ i ∈ List.range as.length,
        ((fun i => (a :: as).getD i d) ∘ (· + 1)) i = as.getD i d := by
      intro i _
      simp [Function.comp]
    rw [List.map_congr_left hmc, ih]

/-- First frame of the C2 counterexample (columns `Time`, `ID`, `A`). -/
def c2d1 : DF :=
  { cols := ["Time", "ID", "A"],
    rows := [[some 0, some 10, some 1], [some 1, some 20, some 2]] }

/-- Second frame of the C2 counterexample: same `ID` values in a different
order and at disjoint times, so joining on `ID` and joining on time give
visibly different tables. -/
def c2d2 : DF :=
  { cols := ["Time", "ID", "B"],
    rows := [[some 5, some 20, some 3], [some 6, some 10, some 4]] }

/-- First file of the C2 counterexample. -/
def c2f1 : DataFile :=
  { id := "f1", dataframe := some c2d1, time_column := "Time",
    time_mode := .ABSOLUTE, headers := ["Time", "ID", "A"],
    join_tolerance := 1/1000 }

/-- Second file of the C2 counterexample: `ALTERNATIVE_KEY` on `"ID"`. -/
def c2f2 : DataFile :=
  { id := "f2", dataframe := some c2d2, time_column := "Time",
    time_mode := .ABSOLUTE, headers := ["Time", "ID", "B"],
    join_strategy := some .ALTERNATIVE_KEY, join_key := some "ID",
    join_tolerance := 1/1000 }

/-- The C2 counterexample test. -/
def c2test : Test :=
  { id := "t2", data_files := [c2f1, c2f2], primary_time_column := "Time" }

/-- What `get_merged_dataframe` actually returns for `c2test`: an outer
join on `_plot_time_` — four rows, `B` missing on both base rows. -/
def c2actual : DF :=
  { cols := ["Time", "ID", "A", "_plot_time_", "B"],
    rows := [[some 0, some 10, some 1, some 0, none],
             [some 1, some 20, some 2, some 1, none],
             [none, none, none, some 5, some 3],
             [none, none, none, some 6, some 4]] }

/-- What joining on the recorded `join_key` (via the never-invoked
`DataMerger.merge_on_alternative_key`) would return: two rows, `B` filled
by `ID`. -/
def c2byKey : DF :=
  { cols := ["Time", "ID", "A", "_plot_time_", "B"],
    rows := [[some 0, some 10, some 1, some 0, some 4],
             [some 1, some 20, some 2, some 1, some 3]] }

/-- A file with its join strategy replaced (all other fields unchanged). -/
def withStrategy (f : DataFile) (s : Option JoinStrategy) : DataFile :=
  { f with join_strategy := s }

/-- Counterexample to C2: the `ALTERNATIVE_KEY` file is **not** merged on
its `join_key` — `get_merged_dataframe` outer-joins on `_plot_time_`,
producing a different table than `merge_on_alternative_key` on `"ID"`
would. -/
theorem C2_alternative_key_counterexample :
    c2f2.join_strategy = some .ALTERNATIVE_KEY ∧
    c2f2.join_key = some "ID" ∧
    getMergedDataframe c2test false = .ok c2actual ∧
    mergeOnAlternativeKey (mkTemp "Time" c2f1 c2d1) (mkTemp "Time" c2f2 c2d2)
      "ID" = .ok c2byKey ∧
    c2actual ≠ c2byKey :=
  ⟨by decide, by decide, by decide, by decide, by decide⟩

/-- **C2 (amended)**: `get_merged_dataframe` dispatches only on
`APPEND_SEGMENT` and `TIME_NEAREST`; an `ALTERNATIVE_KEY` file falls into
the default branch and is merged exactly as a `TIME_EXACT` file — an outer
join on `_plot_time_` with `"_dup"`-suffixed duplicates dropped — its
`join_key` ignored (first conjunct).  The standalone
`DataMerger.merge_on_alternative_key`, which `get_merged_dataframe` never
invokes, does implement the described key join: an outer join on the key
column whose result carries the base columns unchanged plus exactly the
incoming columns that are neither the key nor already on the base side
(second conjunct). -/
theorem C2_alternative_key_amended :
    (∀ (t : Test) (b : Bool) (f1 f2 : DataFile),
      t.data_files = [f1, f2] →
      f2.join_strategy = some .ALTERNATIVE_KEY →
      getMergedDataframe t b = getMergedDataframe
        { t with data_files :=
            [f1, withStrategy f2 (some .TIME_EXACT)] } b) ∧
    (∀ (base_df new_df : DF) (k : String),
      k ∈ base_df.cols → k ∈ new_df.cols →
      ∃ m, mergeOnAlternativeKey base_df new_df k = .ok m ∧
        m.cols = base_df.cols ++
          new_df.cols.filter (fun c => c ≠ k && !base_df.cols.contains c)) := by
  constructor
  · intro t b f1 f2 hfiles hjs
    simp only [getMergedDataframe, hfiles]
    suffices h : mergeFold (if t.primary_time_column = "" then f1.time_column
        else t.primary_time_column) none [f1, f2] =
        mergeFold (if t.primary_time_column = "" then f1.time_column
          else t.primary_time_column) none
          [f1, withStrategy f2 (some .TIME_EXACT)] by
      rw [h]
    have hdf' : (withStrategy f2 (some .TIME_EXACT)).dataframe =
      f2.dataframe := rfl
    have hjs' : (withStrategy f2 (some .TIME_EXACT)).join_strategy =
      some .TIME_EXACT := rfl
    have hmkeq : ∀ d, mkTemp (if t.primary_time_column = ""
        then f1.time_column else t.primary_time_column)
        (withStrategy f2 (some .TIME_EXACT)) d =
        mkTemp (if t.primary_time_column = "" then f1.time_column
          else t.primary_time_column) f2 d := fun d => rfl
    cases hd1 : f1.dataframe <;> cases hd2 : f2.dataframe <;>
      simp only [mergeFold, hd1, hd2, hjs, hdf', hjs', hmkeq]
  · intro base_df new_df k hkb hkn
    obtain ⟨li, hli⟩ := colIdx_some_of_mem base_df k hkb
    have hall : ((k :: new_df.cols.filter
        (fun c => c ≠ k && !base_df.cols.contains c)).all
        (fun c => new_df.cols.contains c)) = true := by
      simp only [List.all_eq_true]
      intro c hc
      rcases List.mem_cons.mp hc with rfl | hc
      · simpa using hkn
      · have := (List.mem_filter.mp hc).1
        simpa using this
    have hidx : ∀ rows, colIdx (DF.mk (k :: new_df.cols.filter
        (fun c => c ≠ k && !base_df.cols.contains c)) rows) k = some 0 := by
      intro rows
      simp [colIdx, List.findIdx?_cons]
    simp only [mergeOnAlternativeKey, selectColsE, hall, if_true, reduceIte]
    simp only [outerMerge, hli, hidx]
    refine ⟨_, rfl, ?_⟩
    simp only
    have hlcols : base_df.cols.map (fun c =>
        if c ≠ k && (k :: new_df.cols.filter
          (fun c => c ≠ k && !base_df.cols.contains c)).contains c
        then c ++ "_x" else c) = base_df.cols := by
      have : ∀ c ∈ base_df.cols,
          (if c ≠ k && (k :: new_df.cols.filter
            (fun c => c ≠ k && !base_df.cols.contains c)).contains c
          then c ++ "_x" else c) = c := by
        intro c hc
        by_cases hck : c = k
        · simp [hck]
        · have hnotin : c ∉ (k :: new_df.cols.filter
              (fun c => c ≠ k && !base_df.cols.contains c)) := by
            intro hmem
            rcases List.mem_cons.mp hmem with rfl | hmem
            · exact hck rfl
            · have := (List.mem_filter.mp hmem).2
              simp only [Bool.and_eq_true, decide_eq_true_eq,
                Bool.not_eq_true'] at this
              exact absurd hc (by simpa using this.2)
          have hcontf : ((k :: new_df.cols.filter
              (fun c => c ≠ k && !base_df.cols.contains c)).contains c) =
              false := by
            simpa using hnotin
          simp only [hck, hcontf]
          simp [hck]
      rw [List.map_congr_left this, List.map_id']
    have hkeep : ((List.range (k :: new_df.cols.filter
        (fun c => c ≠ k && !base_df.cols.contains c)).length).filter
        (fun i => i ≠ 0)) =
        (List.range (new_df.cols.filter
          (fun c => c ≠ k && !base_df.cols.contains c)).length).map
          (· + 1) := by
      rw [List.length_cons, List.range_succ_eq_map, List.filter_cons]
      rw [if_neg (by decide)]
      refine List.filter_eq_self.mpr ?_
      intro i hi
      obtain ⟨i0, _, rfl⟩ := List.mem_map.mp hi
      simp
    rw [hkeep]
    have hnames : ((List.range (new_df.cols.filter
        (fun c => c ≠ k && !base_df.cols.contains c)).length).map (· + 1)).map
        (fun i => (k :: new_df.cols.filter
          (fun c => c ≠ k && !base_df.cols.contains c)).getD i "") =
        new_df.cols.filter (fun c => c ≠ k && !base_df.cols.contains c) := by
      rw [List.map_map]
      have : ∀ i ∈ List.range (new_df.cols.filter
          (fun c => c ≠ k && !base_df.cols.contains c)).length,
          ((fun i => (k :: new_df.cols.filter
            (fun c => c ≠ k && !base_df.cols.contains c)).getD i "") ∘
            (· + 1)) i =
          (new_df.cols.filter
            (fun c => c ≠ k && !base_df.cols.contains c)).getD i "" := by
        intro i _
        simp [Function.comp]
      rw [List.map_congr_left this, map_getD_range]
    rw [hnames]
    have hrcols : (new_df.cols.filter
        (fun c => c ≠ k && !base_df.cols.contains c)).map
        (fun c => if base_df.cols.contains c then c ++ "_y" else c) =
        new_df.cols.filter (fun c => c ≠ k && !base_df.cols.contains c) := by
      have hpt : ∀ c ∈ new_df.cols.filter
          (fun c => c ≠ k && !base_df.cols.contains c),
          (if base_df.cols.contains c then c ++ "_y" else c) = c := by
        intro c hc
        have := (List.mem_filter.mp hc).2
        simp only [Bool.and_eq_true, Bool.not_eq_true'] at this
        simp only [this.2]
        simp
      rw [List.map_congr_left hpt, List.map_id']
    rw [hrcols, hlcols]

/-- Witness for the amended C2 at the concrete counterexample inputs. -/
theorem C2_alternative_key_amended_witness :
    getMergedDataframe c2test false = getMergedDataframe
      { c2test with data_files :=
          [c2f1, withStrategy c2f2 (some .TIME_EXACT)] } false ∧
    (∃ m, mergeOnAlternativeKey c2d1 c2d2 "ID" = .ok m ∧
      m.cols = c2d1.cols ++
        c2d2.cols.filter (fun c => c ≠ "ID" && !c2d1.cols.contains c)) :=
  ⟨C2_alternative_key_amended.1 c2test false c2f1 c2f2 rfl rfl,
   C2_alternative_key_amended.2 c2d1 c2d2 "ID" (by decide) (by decide)⟩

/-! ## C7: empty tests in CONCATENATE comparison -/

/-- Writing a cell's own value back leaves the row unchanged. -/
theorem set_cellAt_self (r : List (Option ℚ)) :
    ∀ i, r.set i (cellAt r i) = r := by
  induction r with
  | nil => intro i; rfl
  | cons a as ih =>
    intro i
    cases i with
    | zero => rfl
    | succ n =>
      simp only [List.set_cons_succ, cellAt, List.get?_cons_succ]
      rw [show ((as.get? n).getD none) = cellAt as n from rfl, ih n]

/-- A successful column projection has exactly the requested columns. -/
theorem selectColsE_ok_cols (d : DF) (cs : List String) (dfc : DF)
    (h : selectColsE d cs = .ok dfc) : dfc.cols = cs := by
  rw [selectColsE] at h
  split_ifs at h
  · cases h
    rfl

/-- Shifting `_plot_time_` by a zero offset is the identity (the column is
present at every call site in `prepare_tests_for_comparison`). -/
theorem shiftPlotTime_zero (d : DF) (h : "_plot_time_" ∈ d.cols) :
    shiftPlotTime d (some 0) = d := by
  obtain ⟨i, hi⟩ := colIdx_some_of_mem d _ h
  rw [shiftPlotTime, getColVals, hi, setCol, hi]
  have hvals : (d.rows.map (fun r => cellAt r i)).map
      (fun x => fadd x (some 0)) = d.rows.map (fun r => cellAt r i) := by
    rw [List.map_map]
    refine List.map_congr_left ?_
    intro r _
    cases hcell : cellAt r i <;> simp [Function.comp, fadd, hcell]
  have hrows : List.zipWith (fun r v => r.set i v) d.rows
      (d.rows.map (fun r => cellAt r i)) = d.rows := by
    rw [List.zipWith_map_right, List.zipWith_same]
    have : ∀ r ∈ d.rows, r.set i (cellAt r i) = r := fun r _ =>
      set_cellAt_self r i
    rw [List.map_congr_left this, List.map_id']
  dsimp only
  rw [hvals, hrows]

/-- The `enumerate` index only matters through `i > 0`: any two positive
indices produce the same `CONCATENATE` layout. -/
theorem prepareConcatAux_idx (gap : ℚ) (sel : List String) :
    ∀ (zs : List Test) (i j : Nat) (off : Option ℚ)
      (acc : List (String × DF)),
      prepareConcatAux gap sel (i + 1) off acc zs =
        prepareConcatAux gap sel (j + 1) off acc zs := by
  intro zs
  induction zs with
  | nil => intro i j off acc; rfl
  | cons t ts ih =>
    intro i j off acc
    simp only [prepareConcatAux]
    cases hm : getMergedDataframe t true with
    | error e => rfl
    | ok df =>
      dsimp only
      by_cases hemp : df.isEmpty = true
      · rw [if_pos hemp, if_pos hemp]
        exact ih (i + 1) (j + 1) off acc
      · rw [if_neg hemp, if_neg hemp]
        cases hsel : selectColsE df ("_plot_time_" ::
            sel.filter (fun c => df.cols.contains c)) with
        | error e => rfl
        | ok dfc =>
          dsimp only
          rw [if_pos (Nat.succ_pos i), if_pos (Nat.succ_pos j)]
          exact ih (i + 1) (j + 1) _ _

/-- Starting the layout at index 0 with a zero cumulative offset is the
same as starting at index 1: the first prepared frame is shifted by 0. -/
theorem prepareConcatAux_zero (gap : ℚ) (sel : List String) :
    ∀ (zs : List Test) (acc : List (String × DF)),
      prepareConcatAux gap sel 0 (some 0) acc zs =
        prepareConcatAux gap sel 1 (some 0) acc zs := by
  intro zs acc
  cases zs with
  | nil => rfl
  | cons t ts =>
    simp only [prepareConcatAux]
    cases hm : getMergedDataframe t true with
    | error e => rfl
    | ok df =>
      dsimp only
      by_cases hemp : df.isEmpty = true
      · rw [if_pos hemp, if_pos hemp]
        exact prepareConcatAux_idx gap sel ts 0 1 (some 0) acc
      · rw [if_neg hemp, if_neg hemp]
        cases hsel : selectColsE df ("_plot_time_" ::
            sel.filter (fun c => df.cols.contains c)) with
        | error e => rfl
        | ok dfc =>
          have hshift : shiftPlotTime dfc (some 0) = dfc :=
            shiftPlotTime_zero dfc (by
              rw [selectColsE_ok_cols df _ dfc hsel]
              exact List.mem_cons_self _ _)
          dsimp only
          rw [if_neg (show ¬ ((0 : ℕ) > 0) from by decide),
            if_pos (show (1 : ℕ) > 0 from by decide), hshift]
          exact prepareConcatAux_idx gap sel ts 0 1 _ _

/-- A test whose merged (filtered) frame is empty contributes nothing to
the `CONCATENATE` layout wherever it occurs; the `i = 0 → off = some 0`
invariant characterises the reachable loop states. -/
theorem prepareConcatAux_skip (gap : ℚ) (sel : List String) (t : Test)
    (d : DF) (hmt : getMergedDataframe t true = .ok d)
    (hemp : d.isEmpty = true) :
    ∀ (xs ys : List Test) (i : Nat) (off : Option ℚ)
      (acc : List (String × DF)), (i = 0 → off = some 0) →
      prepareConcatAux gap sel i off acc (xs ++ t :: ys) =
        prepareConcatAux gap sel i off acc (xs ++ ys) := by
  intro xs
  induction xs with
  | nil =>
    intro ys i off acc hinv
    rw [List.nil_append, List.nil_append]
    have hskip : prepareConcatAux gap sel i off acc (t :: ys) =
        prepareConcatAux gap sel (i + 1) off acc ys := by
      simp only [prepareConcatAux, hmt]
      rw [if_pos hemp]
    rw [hskip]
    cases i with
    | zero =>
      rw [hinv rfl]
      exact (prepareConcatAux_zero gap sel ys acc).symm
    | succ n => exact prepareConcatAux_idx gap sel ys (n + 1) n off acc
  | cons x xs ih =>
    intro ys i off acc _
    rw [List.cons_append, List.cons_append]
    simp only [prepareConcatAux]
    cases hm : getMergedDataframe x true with
    | error e => rfl
    | ok dfx =>
      dsimp only
      by_cases hex : dfx.isEmpty = true
      · rw [if_pos hex, if_pos hex]
        exact ih ys (i + 1) off acc (fun h => absurd h (Nat.succ_ne_zero i))
      · rw [if_neg hex, if_neg hex]
        cases hsel : selectColsE dfx ("_plot_time_" ::
            sel.filter (fun c => dfx.cols.contains c)) with
        | error e => rfl
        | ok dfc =>
          dsimp only
          exact ih ys (i + 1) _ _ (fun h => absurd h (Nat.succ_ne_zero i))

/-- A test's duration as `get_combined_time_range` computes it. -/
def testDuration (t : Test) : ℚ := (testTimeRange t).2 - (testTimeRange t).1

/-- Closed form of the `CONCATENATE` range fold from any positive index:
every remaining test adds the gap and its duration — including tests whose
prepared table is empty. -/
theorem concatRangeAux_formula (gap : ℚ) :
    ∀ (ts : List Test) (i : Nat) (c : ℚ),
      concatRangeAux gap (i + 1) c ts =
        c + (ts.map testDuration).sum + (ts.length : ℚ) * gap := by
  intro ts
  induction ts with
  | nil => intro i c; simp [concatRangeAux]
  | cons t ts ih =>
    intro i c
    simp only [concatRangeAux]
    rw [if_pos (Nat.succ_pos i), ih (i + 1)]
    simp only [testDuration, List.map_cons, List.sum_cons, List.length_cons]
    push_cast
    ring

/-- `get_combined_time_range` in `CONCATENATE` mode: `[0, Σ durations +
(number of tests − 1) · gap]`, counting every listed test. -/
theorem getCombined_concat_formula (gap : ℚ) (t0 : Test) (rest : List Test) :
    getCombinedTimeRange .CONCATENATE gap (t0 :: rest) =
      (0, ((t0 :: rest).map testDuration).sum + (rest.length : ℚ) * gap) := by
  simp only [getCombinedTimeRange, concatRangeAux]
  rw [if_neg (show ¬ ((0 : ℕ) > 0) from by decide),
    concatRangeAux_formula gap rest 0]
  simp only [testDuration, List.map_cons, List.sum_cons]
  ring_nf

/-- Frame for the non-empty C7 test: times 0 and 10. -/
def c7d1 : DF := { cols := ["Time", "V"], rows := [[some 0, some 1], [some 10, some 2]] }

/-- File of the non-empty C7 test. -/
def c7f1 : DataFile :=
  { id := "f1", dataframe := some c7d1, time_column := "Time",
    time_mode := .ABSOLUTE, headers := ["Time", "V"], join_tolerance := 1/1000 }

/-- The non-empty C7 test (time range `[0, 10]`). -/
def c7t1 : Test := { id := "t1", data_files := [c7f1], primary_time_column := "Time" }

/-- The empty C7 test: no data files, so its prepared table is empty. -/
def c7t2 : Test := { id := "t2" }

/-- Counterexample to C7: the empty test `c7t2` still advances the
combined time range — `get_combined_time_range` adds the gap for every
test after the first, empty or not, so with the empty test present the
range is `[0, 11]` instead of the `[0, 10]` obtained without it. -/
theorem C7_concat_empty_counterexample :
    getMergedDataframe c7t2 true = .ok emptyDF ∧
    DF.isEmpty emptyDF = true ∧
    getCombinedTimeRange .CONCATENATE 1 [c7t1, c7t2] = (0, 11) ∧
    getCombinedTimeRange .CONCATENATE 1 [c7t1] = (0, 10) ∧
    getCombinedTimeRange .CONCATENATE 1 [c7t1, c7t2] ≠
      getCombinedTimeRange .CONCATENATE 1 [c7t1] :=
  ⟨by decide, by decide, by decide, by decide, by decide⟩

/-- **C7 (amended)**: in `CONCATENATE` mode a Test whose prepared table is
empty is skipped by `prepare_tests_for_comparison` — it produces no entry,
does not advance the cumulative offset, and the other tests' shifted
`_plot_time_` values are exactly those obtained with the empty Test removed
(first conjunct).  `get_combined_time_range`, however, adds the inter-test
`gap` for **every** test after the first, including empty ones: the
combined range is `[0, Σ durations + (n − 1)·gap]` over all `n` listed
tests (second conjunct), so it is *not* invariant under removing an empty
Test when the gap is non-zero. -/
theorem C7_concat_empty_amended :
    (∀ (gap : ℚ) (sel : List String) (xs ys : List Test) (t : Test) (d : DF),
      getMergedDataframe t true = .ok d → d.isEmpty = true →
      prepareTestsForComparison .CONCATENATE gap (xs ++ t :: ys) sel =
        prepareTestsForComparison .CONCATENATE gap (xs ++ ys) sel) ∧
    (∀ (gap : ℚ) (t0 : Test) (rest : List Test),
      getCombinedTimeRange .CONCATENATE gap (t0 :: rest) =
        (0, ((t0 :: rest).map testDuration).sum + (rest.length : ℚ) * gap)) := by
  constructor
  · intro gap sel xs ys t d hmt hemp
    simp only [prepareTestsForComparison]
    exact prepareConcatAux_skip gap sel t d hmt hemp xs ys 0 (some 0) []
      (fun _ => rfl)
  · exact getCombined_concat_formula

/-- Witness for the amended C7 at the concrete tests. -/
theorem C7_concat_empty_amended_witness :
    prepareTestsForComparison .CONCATENATE 1 [c7t1, c7t2] ["V"] =
      prepareTestsForComparison .CONCATENATE 1 [c7t1] ["V"] ∧
    getCombinedTimeRange .CONCATENATE 1 [c7t1, c7t2] =
      (0, (([c7t1, c7t2]).map testDuration).sum +
        (([c7t2].length : ℕ) : ℚ) * 1) :=
  ⟨C7_concat_empty_amended.1 1 ["V"] [c7t1] [] c7t2 emptyDF (by decide)
     (by decide),
   C7_concat_empty_amended.2 1 c7t1 [c7t2]⟩

end LogViewer
